import Mathlib

/-!
Shallow embedding of the programmable-transaction execution adapter
(`src/sui-execution/latest/sui-adapter/src/programmable_transactions/execution.rs`)
and proofs of the frozen claims about it.

External collaborators (the Move VM, gas charger, object store, linkage view,
serde/BCS serialization) are represented as explicit parameters or environment
records; the control flow, error selection and state updates of the adapter
itself are translated from the source.
-/

namespace Spec2Proof

/-- Ability flags of a Move type (`move_binary_format::file_format::AbilitySet`). -/
structure AbilitySet where
  hasCopy : Bool
  hasDrop : Bool
  hasStore : Bool
  hasKey : Bool
deriving DecidableEq, Repr

/-- Empty ability set (`AbilitySet::EMPTY`). -/
def AbilitySet.empty : AbilitySet := ⟨false, false, false, false⟩

/-- Resolved identity of a datatype: defining address, module name, datatype name
(the triple returned by `get_datatype_ident`). -/
structure DataIdent where
  addr : Nat
  moduleName : String
  datatypeName : String
deriving DecidableEq, Repr

def MOVE_STDLIB_ADDRESS : Nat := 1
def SUI_FRAMEWORK_ADDRESS : Nat := 2

def RESOLVED_STD_OPTION : DataIdent := ⟨MOVE_STDLIB_ADDRESS, "option", "Option"⟩
def RESOLVED_ASCII_STR : DataIdent := ⟨MOVE_STDLIB_ADDRESS, "ascii", "String"⟩
def RESOLVED_UTF8_STR : DataIdent := ⟨MOVE_STDLIB_ADDRESS, "string", "String"⟩
def RESOLVED_SUI_ID : DataIdent := ⟨SUI_FRAMEWORK_ADDRESS, "object", "ID"⟩
def RESOLVED_RECEIVING_STRUCT : DataIdent := ⟨SUI_FRAMEWORK_ADDRESS, "transfer", "Receiving"⟩
def TX_CONTEXT_IDENT : DataIdent := ⟨SUI_FRAMEWORK_ADDRESS, "tx_context", "TxContext"⟩

mutual

/-- Runtime types (`move_vm_types::loaded_data::runtime_types::Type`). Datatype
constructors carry the identity and ability set the VM's cache would resolve the
cached index to. -/
inductive MoveType where
  | bool
  | u8
  | u16
  | u32
  | u64
  | u128
  | u256
  | address
  | signer
  | vector (elem : MoveType)
  | datatype (ident : DataIdent) (abilities : AbilitySet)
  | datatypeInst (ident : DataIdent) (abilities : AbilitySet) (typeArgs : TypeArgs)
  | reference (inner : MoveType)
  | mutableReference (inner : MoveType)
  | tyParam (idx : Nat)
deriving DecidableEq

/-- The type-argument vector of a datatype instantiation. -/
inductive TypeArgs where
  | nil
  | cons (head : MoveType) (tail : TypeArgs)
deriving DecidableEq

end

/-- Number of type arguments (`targs.len()`). -/
def TypeArgs.length : TypeArgs → Nat
  | .nil => 0
  | .cons _ t => t.length + 1

/-- Command-argument error kinds used by the adapter
(`sui_types::execution_status::CommandArgumentError`, restricted to the variants
the embedded code produces). -/
inductive CommandArgErr where
  | TypeMismatch
  | InvalidBCSBytes
  | InvalidUsageOfPureArg
  | InvalidArgumentToPrivateEntryFunction
deriving DecidableEq, Repr

/-- Package-upgrade error kinds (`sui_types::execution_status::PackageUpgradeError`). -/
inductive PackageUpgradeErr where
  | IncompatibleUpgrade
  | DigestDoesNotMatch (digest : List Nat)
  | UnknownUpgradePolicy (policy : Nat)
  | PackageIDDoesNotMatch (packageId ticketId : Nat)
deriving DecidableEq, Repr

/-- Execution error kinds (`sui_types::error::ExecutionErrorKind`, restricted to
what the embedded code produces; collaborator failures are carried through as
opaque values of this type). -/
inductive ExecutionErrorKind where
  | CommandArgError (argIdx : Nat) (kind : CommandArgErr)
  | TypeArgError (argIdx : Nat)
  | ArityMismatch
  | FunctionNotFound
  | NonEntryFunctionInvoked
  | InvalidPublicFunctionReturnType (idx : Nat)
  | PackageUpgradeErrorKind (e : PackageUpgradeErr)
  | PublishUpgradeMissingDependency
  | InvariantViolation
  | InsufficientCoinBalance
  | ValueSizeExceeded
  | GasError (code : Nat)
  | VMError (code : Nat)
  | OtherError (code : Nat)
deriving DecidableEq, Repr

/-- An execution error: a kind plus the command index attached by
`ExecutionError::with_command_index`. -/
structure ExecutionError where
  kind : ExecutionErrorKind
  commandIndex : Option Nat
deriving DecidableEq, Repr

def ExecutionError.fromKind (k : ExecutionErrorKind) : ExecutionError := ⟨k, none⟩

def ExecutionError.withCommandIndex (e : ExecutionError) (idx : Nat) : ExecutionError :=
  { e with commandIndex := some idx }

/-- Helper mirroring `sui_types::error::command_argument_error`. -/
def command_argument_error (k : CommandArgErr) (idx : Nat) : ExecutionError :=
  ExecutionError.fromKind (.CommandArgError idx k)

/-- Layouts needing validation past BCS (`PrimitiveArgumentLayout` in the source). -/
inductive PrimitiveArgumentLayout where
  | option (inner : PrimitiveArgumentLayout)
  | vector (inner : PrimitiveArgumentLayout)
  | ascii
  | utf8
  | bool
  | u8
  | u16
  | u32
  | u64
  | u128
  | u256
  | address
deriving DecidableEq, Repr

/-- Modelled from the spec: ability lookup (`context.get_type_abilities`) is
answered by the external VM runtime, which is not under `src/`. Primitive types
are copyable, droppable and storable; `signer` is only droppable; vectors take
their element's abilities without `key`; datatypes answer with the ability set
recorded at load time. -/
def getTypeAbilities : MoveType → AbilitySet
  | .bool | .u8 | .u16 | .u32 | .u64 | .u128 | .u256 | .address =>
      ⟨true, true, true, false⟩
  | .signer => ⟨false, true, false, false⟩
  | .vector e =>
      let a := getTypeAbilities e
      ⟨a.hasCopy, a.hasDrop, a.hasStore, false⟩
  | .datatype _ a => a
  | .datatypeInst _ a _ => a
  | .reference _ | .mutableReference _ => ⟨true, true, false, false⟩
  | .tyParam _ => AbilitySet.empty

/-- Embedding of `primitive_serialization_layout`: returns `some layout` iff the
type is a primitive, an ID, a string, or an option/vector of a valid type;
references and type parameters are invariant violations. -/
def primitive_serialization_layout :
    MoveType → Except ExecutionError (Option PrimitiveArgumentLayout)
  | .signer => .ok none
  | .reference _ => .error (ExecutionError.fromKind .InvariantViolation)
  | .mutableReference _ => .error (ExecutionError.fromKind .InvariantViolation)
  | .tyParam _ => .error (ExecutionError.fromKind .InvariantViolation)
  | .bool => .ok (some .bool)
  | .u8 => .ok (some .u8)
  | .u16 => .ok (some .u16)
  | .u32 => .ok (some .u32)
  | .u64 => .ok (some .u64)
  | .u128 => .ok (some .u128)
  | .u256 => .ok (some .u256)
  | .address => .ok (some .address)
  | .vector inner =>
      match primitive_serialization_layout inner with
      | .error e => .error e
      | .ok o => .ok (o.map (fun l => .vector l))
  | .datatypeInst ident _ (.cons t .nil) =>
      if ident = RESOLVED_STD_OPTION then
        match primitive_serialization_layout t with
        | .error e => .error e
        | .ok o => .ok (o.map (fun l => .option l))
      else .ok none
  | .datatypeInst _ _ .nil => .ok none
  | .datatypeInst _ _ (.cons _ (.cons _ _)) => .ok none
  | .datatype ident _ =>
      if ident = RESOLVED_SUI_ID then .ok (some .address)
      else if ident = RESOLVED_ASCII_STR then .ok (some .ascii)
      else if ident = RESOLVED_UTF8_STR then .ok (some .utf8)
      else .ok none

/-- The inner `amplification` function of `amplification_bound_`. -/
def PrimitiveArgumentLayout.amplification : PrimitiveArgumentLayout → Nat
  | .option inner => 1 + inner.amplification
  | .vector inner => inner.amplification
  | .ascii | .utf8 => 2
  | .bool | .u8 | .u16 | .u32 | .u64 => 1
  | .u128 | .u256 | .address => 2

/-- The protocol-configuration flags consumed by the embedded code
(`sui_protocol_config::ProtocolConfig`, restricted to the fields read here). -/
structure ProtocolConfig where
  maxPtbValueSize : Option Nat
  maxMoveValueDepth : Nat
  maxPtbValueSizeV2 : Bool
  banEntryInit : Bool
  disallowNewModulesInDepsOnlyPackages : Bool
deriving DecidableEq, Repr

/-- The execution-mode capability flags (`ExecutionMode` trait). -/
structure ExecMode where
  allowArbitraryValues : Bool
  allowArbitraryFunctionCalls : Bool
  packagesArePredefined : Bool
deriving DecidableEq, Repr

/-- Embedding of `amplification_bound_`: per-type admissible serialized length.
The `assert_ne!(max_move_value_depth, 0)` of the source is modelled as an
invariant-violation error. -/
def amplification_bound_ (mode : ExecMode) (cfg : ProtocolConfig) (paramTy : MoveType) :
    Except ExecutionError (Option Nat) :=
  if mode.packagesArePredefined then .ok none
  else
    match cfg.maxPtbValueSize with
    | none => .ok none
    | some bound =>
      match primitive_serialization_layout paramTy with
      | .error e => .error e
      | .ok layoutOpt =>
        let amp : Nat :=
          match layoutOpt with
          | none => cfg.maxMoveValueDepth
          | some layout => layout.amplification
        if cfg.maxMoveValueDepth = 0 then .error (ExecutionError.fromKind .InvariantViolation)
        else
          let amp := if amp = 0 then cfg.maxMoveValueDepth else amp
          .ok (some (bound / amp))

/-- Embedding of `amplification_bound` (the `OnceCell` wrapper): under the
`max_ptb_value_size_v2` flag, types without the `copy` ability are exempt. -/
def amplification_bound (mode : ExecMode) (cfg : ProtocolConfig) (paramTy : MoveType) :
    Except ExecutionError (Option Nat) :=
  if cfg.maxPtbValueSizeV2 && !(getTypeAbilities paramTy).hasCopy then .ok none
  else amplification_bound_ mode cfg paramTy

/-- Coin contents (`sui_types::coin::Coin`): object id and balance. Balances
are modelled as naturals. -/
structure Coin where
  id : Nat
  balance : Nat
deriving DecidableEq, Repr

/-- Contents of an object value (`ObjectContents` in `execution_value.rs`):
either a coin or generic struct bytes. -/
inductive ObjectContents where
  | coin (c : Coin)
  | raw (bytes : List Nat)
deriving DecidableEq, Repr

/-- An object value (`ObjectValue`): its runtime type, transferability, the
provenance flag recording production by a non-entry Move call, and contents. -/
structure ObjectValue where
  type_ : MoveType
  hasPublicTransfer : Bool
  usedInNonEntryMoveCall : Bool
  contents : ObjectContents
deriving DecidableEq

/-- Raw-value type information (`RawValueType`): either plain input bytes
(`Any`) or a loaded type with abilities and the provenance flag. -/
inductive RawValueType where
  | any
  | loaded (ty : MoveType) (abilities : AbilitySet) (usedInNonEntryMoveCall : Bool)
deriving DecidableEq

/-- A resolved argument or result value (`Value`). -/
inductive Value where
  | object (o : ObjectValue)
  | raw (t : RawValueType) (bytes : List Nat)
  | receiving (id version : Nat) (assignedType : Option MoveType)
deriving DecidableEq

/-- Modelled from the spec: the provenance accessor of `Value`
(`was_used_in_non_entry_move_call`, `execution_value.rs`, outside `src/`). Per
the spec, a value's provenance records whether it was produced by a prior
non-entry Move call; objects and loaded raw values carry the flag, plain input
bytes and receiving references never do. -/
def Value.wasUsedInNonEntryMoveCall : Value → Bool
  | .object o => o.usedInNonEntryMoveCall
  | .raw (.loaded _ _ u) _ => u
  | .raw .any _ => false
  | .receiving _ _ _ => false

/-- Modelled from the spec: BCS serialization of a resolved value
(`write_bcs_bytes`, `execution_value.rs`, outside `src/`): the bytes of the
value in the fixed wire format. -/
def Value.bcsBytes : Value → List Nat
  | .raw _ bytes => bytes
  | .object o =>
      match o.contents with
      | .coin c => [c.id, c.balance]
      | .raw bytes => bytes
  | .receiving id version _ => [id, version]

/-- Modelled from the spec: `Value::write_bcs_bytes` with an optional size
bound (`execution_value.rs`, outside `src/`); fails when a bound is given and
the serialized length exceeds it. -/
def Value.writeBcsBytes (v : Value) (bound : Option Nat) :
    Except ExecutionError (List Nat) :=
  let bytes := v.bcsBytes
  match bound with
  | none => .ok bytes
  | some b =>
      if bytes.length ≤ b then .ok bytes
      else .error (ExecutionError.fromKind .ValueSizeExceeded)

/-- Modelled from the spec: `Coin::split` (`sui_types::coin`, outside `src/`).
Per the spec, splitting amount `a` off a coin of balance `V` fails when
`a > V`, and otherwise yields the source decremented to `V - a` together with a
new coin of balance `a` carrying the given fresh id. -/
def Coin.split (c : Coin) (amount : Nat) (newCoinId : Nat) :
    Except ExecutionError (Coin × Coin) :=
  if amount ≤ c.balance then
    .ok ({ c with balance := c.balance - amount }, ⟨newCoinId, amount⟩)
  else .error (ExecutionError.fromKind .InsufficientCoinBalance)

/-- Modelled from the spec: `Coin::add` (`sui_types::coin`, outside `src/`).
Per the spec, merging preserves total balance exactly: the target's balance
grows by the merged balance. -/
def Coin.add (c : Coin) (amount : Nat) : Coin :=
  { c with balance := c.balance + amount }

/-- Modelled from the spec: `ObjectValue::coin` (`execution_value.rs`, outside
`src/`): wraps a coin as an object value of the given coin type; coins are
publicly transferable and a freshly split coin carries no non-entry-call
provenance. -/
def ObjectValue.coinValue (ty : MoveType) (c : Coin) : ObjectValue :=
  ⟨ty, true, false, .coin c⟩

/-- Balance of an object value that is a coin (model accessor). -/
def ObjectValue.coinBalance (o : ObjectValue) : Nat :=
  match o.contents with
  | .coin c => c.balance
  | .raw _ => 0

/-- Object id of an object value that is a coin (model accessor). -/
def ObjectValue.coinId (o : ObjectValue) : Nat :=
  match o.contents with
  | .coin c => c.id
  | .raw _ => 0

/-- One timing entry per attempted command (`ExecutionTiming`, durations
abstracted away). -/
inductive ExecutionTiming where
  | success
  | abort
deriving DecidableEq, Repr

/-- Observable bookkeeping of `execute_inner`: recorded timings, the set of
attempted command indices (instrumentation of the loop), and which state-view
saves have happened. -/
structure LoopState where
  timings : List ExecutionTiming
  attempted : List Nat
  savedLoadedObjects : Bool
  savedWrappedContainers : Bool
  recordedResults : Bool
deriving DecidableEq, Repr

def LoopState.initial : LoopState := ⟨[], [], false, false, false⟩

/-- The command loop of `execute_inner`: commands are attempted in index order;
per-command behavior over the context type `σ` is the parameter `exec` (the
embedding of `execute_command` for the transaction at hand). On the first
error, a loaded-objects save is performed, an abort timing is recorded, and the
error is tagged with the failing command index. -/
def executeCommandsFrom {σ : Type} (exec : Nat → σ → Except ExecutionError σ) :
    Nat → Nat → σ → LoopState → Except ExecutionError σ × LoopState
  | _, 0, ctx, st => (.ok ctx, st)
  | idx, n + 1, ctx, st =>
    let st1 : LoopState := { st with attempted := st.attempted ++ [idx] }
    match exec idx ctx with
    | .error e =>
        (.error (e.withCommandIndex idx),
         { st1 with
            savedLoadedObjects := true
            timings := st1.timings ++ [.abort] })
    | .ok ctx2 =>
        executeCommandsFrom exec (idx + 1) n ctx2
          { st1 with timings := st1.timings ++ [.success] }

/-- Embedding of `execute_inner`: run the command loop; on full success save
the loaded objects and wrapped containers, apply `context.finish` and record
the execution results. -/
def execute_inner {σ : Type} (exec : Nat → σ → Except ExecutionError σ)
    (finish : σ → Except ExecutionError Unit) (numCommands : Nat) (ctx0 : σ) :
    Except ExecutionError Unit × LoopState :=
  match executeCommandsFrom exec 0 numCommands ctx0 LoopState.initial with
  | (.error e, st) => (.error e, st)
  | (.ok ctx, st) =>
    let st2 := { st with savedLoadedObjects := true, savedWrappedContainers := true }
    match finish ctx with
    | .error e => (.error e, st2)
    | .ok _ => (.ok (), { st2 with recordedResults := true })

/-- The amount loop of the `Command::SplitCoins` arm: for each amount argument,
resolve it by value, draw a fresh id from the id counter and split the source
coin, collecting the new coins as object values of the source's coin type. -/
def splitCoinsLoop (coinType : MoveType) :
    List (Except ExecutionError Nat) → Coin → Nat →
    Except ExecutionError (List Value × Coin × Nat)
  | [], coin, ctr => .ok ([], coin, ctr)
  | a :: rest, coin, ctr =>
    match a with
    | .error e => .error e
    | .ok amount =>
      match Coin.split coin amount ctr with
      | .error e => .error e
      | .ok (coin2, newCoin) =>
        match splitCoinsLoop coinType rest coin2 (ctr + 1) with
        | .error e => .error e
        | .ok (values, coinFin, ctrFin) =>
          .ok (Value.object (ObjectValue.coinValue coinType newCoin) :: values,
               coinFin, ctrFin)

/-- Embedding of the `Command::SplitCoins` arm of `execute_command`:
mutably borrow the source coin (resolution outcome `borrowResult`), fail with a
type mismatch at argument 0 if it is not a coin, run the amount loop, and
restore the source with its decremented balance. Returns the command results,
the restored source value, and the next fresh id. -/
def execute_split_coins (borrowResult : Except ExecutionError ObjectValue)
    (amountArgs : List (Except ExecutionError Nat)) (ctr : Nat) :
    Except ExecutionError (List Value × Value × Nat) :=
  match borrowResult with
  | .error e => .error e
  | .ok obj =>
    match obj.contents with
    | .raw _ => .error (command_argument_error .TypeMismatch 0)
    | .coin coin =>
      match splitCoinsLoop obj.type_ amountArgs coin ctr with
      | .error e => .error e
      | .ok (values, coinFin, ctrFin) =>
        .ok (values, .object { obj with contents := .coin coinFin }, ctrFin)

/-- Sequencing of a list of fallible resolutions
(`collect::<Result<Vec<_>, _>>()`). -/
def exceptSequence {α : Type} : List (Except ExecutionError α) → Except ExecutionError (List α)
  | [] => .ok []
  | x :: xs =>
    match x with
    | .error e => .error e
    | .ok a =>
      match exceptSequence xs with
      | .error e => .error e
      | .ok rest => .ok (a :: rest)

/-- The coin loop of the `Command::MergeCoins` arm: each merged coin must have
the target's type (else a type mismatch at that argument's index, offset by one
for the target argument); its id is deleted and its balance added to the
target. A same-typed non-coin object is an invariant violation. -/
def mergeCoinsLoop (targetType : MoveType) :
    List ObjectValue → Nat → Coin → List Nat → Except ExecutionError (Coin × List Nat)
  | [], _, targetCoin, deleted => .ok (targetCoin, deleted)
  | coin :: rest, idx, targetCoin, deleted =>
    if coin.type_ ≠ targetType then
      .error (command_argument_error .TypeMismatch (idx + 1))
    else
      match coin.contents with
      | .raw _ => .error (ExecutionError.fromKind .InvariantViolation)
      | .coin c =>
          mergeCoinsLoop targetType rest (idx + 1)
            (Coin.add targetCoin c.balance) (deleted ++ [c.id])

/-- Embedding of the `Command::MergeCoins` arm of `execute_command`: mutably
borrow the target (type mismatch at argument 0 if not a coin), resolve every
merged coin by value, run the coin loop, and restore the target. Returns the
restored target value and the deleted coin ids. -/
def execute_merge_coins (borrowTarget : Except ExecutionError ObjectValue)
    (coinArgs : List (Except ExecutionError ObjectValue)) :
    Except ExecutionError (Value × List Nat) :=
  match borrowTarget with
  | .error e => .error e
  | .ok target =>
    match target.contents with
    | .raw _ => .error (command_argument_error .TypeMismatch 0)
    | .coin targetCoin =>
      match exceptSequence coinArgs with
      | .error e => .error e
      | .ok coins =>
        match mergeCoinsLoop target.type_ coins 0 targetCoin [] with
        | .error e => .error e
        | .ok (finalCoin, deleted) =>
          .ok (.object { target with contents := .coin finalCoin }, deleted)

/-- Collaborator outcomes for one `Command::Publish` execution: gas charging,
module deserialization, dependency fetching, package construction, linkage
save/restore, bytecode verification (`publish_and_verify_modules`), module
initializers (`init_modules`), and the upgrade-cap object construction.
Packages are abstract tokens. -/
structure PublishEnv where
  chargeGas : Except ExecutionError Unit
  deserializeModules : Except ExecutionError (List Nat)
  fetchDeps : Except ExecutionError (List Nat)
  newPackage : Except ExecutionError Nat
  setLinkage : Except ExecutionError Unit
  resetLinkage : Except ExecutionError Unit
  verifyModules : Except ExecutionError Unit
  initResult : Except ExecutionError Unit
  makeCapValue : Except ExecutionError Value

/-- Embedding of `execute_move_publish`: the package is optimistically written
to the transaction-local package table before verification and initializer
execution, and popped again as a whole if either fails, surfacing the original
error. Returns the command result and the resulting package table. -/
def execute_move_publish (env : PublishEnv) (predefined : Bool) (packages : List Nat) :
    Except ExecutionError (List Value) × List Nat :=
  match env.chargeGas with
  | .error e => (.error e, packages)
  | .ok _ =>
  match env.deserializeModules with
  | .error e => (.error e, packages)
  | .ok _modules =>
  match env.fetchDeps with
  | .error e => (.error e, packages)
  | .ok _deps =>
  match env.newPackage with
  | .error e => (.error e, packages)
  | .ok pkg =>
  match env.setLinkage with
  | .error e => (.error e, packages)
  | .ok _ =>
    let packages1 := packages ++ [pkg]
    let res : Except ExecutionError Unit :=
      match env.verifyModules with
      | .error e => .error e
      | .ok _ => env.initResult
    match env.resetLinkage with
    | .error e => (.error e, packages1)
    | .ok _ =>
      match res with
      | .error e => (.error e, packages1.dropLast)
      | .ok _ =>
        if predefined then (.ok [], packages1)
        else
          match env.makeCapValue with
          | .error e => (.error e, packages1)
          | .ok v => (.ok [v], packages1)

/-- Marker of what kind of function is being invoked (`FunctionKind`). -/
inductive FunctionKind where
  | privateEntry
  | publicEntry
  | nonEntry
  | init
deriving DecidableEq, Repr

/-- Remembered type information for return values and by-mut-ref arguments
(`ValueKind`). -/
inductive ValueKind where
  | objectKind (type_ : MoveType) (hasPublicTransfer : Bool)
  | rawKind (ty : MoveType) (abilities : AbilitySet)
deriving DecidableEq

/-- Function visibility (`move_binary_format::file_format::Visibility`). -/
inductive Visibility where
  | vPrivate
  | vFriend
  | vPublic
deriving DecidableEq, Repr

/-- A function definition as the loaded module presents it: name, visibility,
entry flag, code length (none for native functions), and the instantiated
signature (parameters and returns after type-argument substitution). -/
structure FunctionDef where
  name : String
  visibility : Visibility
  isEntry : Bool
  codeLen : Option Nat
  parameters : List MoveType
  returns : List MoveType
deriving DecidableEq

/-- A loaded module: its address, name, and function definitions in
definition order. -/
structure ModuleDef where
  addr : Nat
  name : String
  functionDefs : List FunctionDef
deriving DecidableEq

def INIT_FN_NAME : String := "init"

/-- Modelled from the spec: the designated raw event-emission module
(`sui_verifier::private_generics::EVENT_MODULE`, outside `src/`). -/
def EVENT_MODULE : String := "event"

/-- Modelled from the spec: the framework transfer module
(`sui_verifier::private_generics::TRANSFER_MODULE`, outside `src/`). -/
def TRANSFER_MODULE : String := "transfer"

/-- Modelled from the spec: the designated private transfer functions
(`sui_verifier::private_generics::PRIVATE_TRANSFER_FUNCTIONS`, outside
`src/`), each with a `public_`-prefixed public wrapper. -/
def PRIVATE_TRANSFER_FUNCTIONS : List String :=
  ["transfer", "freeze_object", "share_object", "receive", "party_transfer"]

/-- Embedding of `check_private_generics`: calls into the framework's raw
event module, or to a designated private transfer function of the framework's
transfer module, are rejected with a non-entry-function-invoked error. -/
def check_private_generics (moduleAddr : Nat) (moduleName function : String) :
    Except ExecutionError Unit :=
  if moduleAddr = SUI_FRAMEWORK_ADDRESS ∧ moduleName = EVENT_MODULE then
    .error (ExecutionError.fromKind .NonEntryFunctionInvoked)
  else if moduleAddr = SUI_FRAMEWORK_ADDRESS ∧ moduleName = TRANSFER_MODULE
      ∧ function ∈ PRIVATE_TRANSFER_FUNCTIONS then
    .error (ExecutionError.fromKind .NonEntryFunctionInvoked)
  else .ok ()

/-- Classification of one return value in `check_non_entry_signature`: a
reference return is an invalid-public-function-return-type error at that
index, except under the arbitrary-values (relaxed inspection) mode where it is
dereferenced; a datatype with the `key` ability becomes an object kind, all
else a raw kind. -/
def classifyReturn (mode : ExecMode) (idx : Nat) (returnType : MoveType) :
    Except ExecutionError ValueKind :=
  let deref : Except ExecutionError MoveType :=
    match returnType with
    | .reference inner =>
        if mode.allowArbitraryValues then .ok inner
        else .error (ExecutionError.fromKind (.InvalidPublicFunctionReturnType idx))
    | .mutableReference inner =>
        if mode.allowArbitraryValues then .ok inner
        else .error (ExecutionError.fromKind (.InvalidPublicFunctionReturnType idx))
    | t => .ok t
  match deref with
  | .error e => .error e
  | .ok t =>
    let abilities := getTypeAbilities t
    match t with
    | .reference _ | .mutableReference _ =>
        .error (ExecutionError.fromKind .InvariantViolation)
    | .tyParam _ => .error (ExecutionError.fromKind .InvariantViolation)
    | .datatype i a =>
        if abilities.hasKey then .ok (.objectKind (.datatype i a) abilities.hasStore)
        else .ok (.rawKind (.datatype i a) abilities)
    | .datatypeInst i a ts =>
        if abilities.hasKey then .ok (.objectKind (.datatypeInst i a ts) abilities.hasStore)
        else .ok (.rawKind (.datatypeInst i a ts) abilities)
    | t2 => .ok (.rawKind t2 abilities)

/-- The indexed fold over declared return types in `check_non_entry_signature`. -/
def checkReturnsFrom (mode : ExecMode) :
    Nat → List MoveType → Except ExecutionError (List ValueKind)
  | _, [] => .ok []
  | idx, t :: rest =>
    match classifyReturn mode idx t with
    | .error e => .error e
    | .ok k =>
      match checkReturnsFrom mode (idx + 1) rest with
      | .error e => .error e
      | .ok ks => .ok (k :: ks)

/-- Embedding of `check_non_entry_signature`. -/
def check_non_entry_signature (mode : ExecMode) (returns : List MoveType) :
    Except ExecutionError (List ValueKind) :=
  checkReturnsFrom mode 0 returns

/-- Function lookup by name over the definition list, with definition index
(the `enumerate().find(..)` of `check_visibility_and_signature`). -/
def findFunctionDefFrom (defs : List FunctionDef) (function : String) (idx : Nat) :
    Option (Nat × FunctionDef) :=
  match defs with
  | [] => none
  | d :: rest =>
      if d.name = function then some (idx, d)
      else findFunctionDefFrom rest function (idx + 1)

/-- The information derived per call (`LoadedFunctionInfo`). -/
structure LoadedFunctionInfo where
  kind : FunctionKind
  parameters : List MoveType
  returns : List MoveType
  returnValueKinds : List ValueKind
  index : Nat
  lastInstr : Nat
deriving DecidableEq

/-- The function-kind classification of `check_visibility_and_signature` from
visibility and entry flag: private/friend entry functions are private entry;
public functions are public entry or non-entry; a private non-entry function is
`init` when invoked from module publication, is callable as non-entry when the
mode allows arbitrary function calls, and is otherwise rejected (friend
likewise). -/
def functionKindOf (mode : ExecMode) (fdef : FunctionDef) (function : String)
    (fromInit : Bool) : Except ExecutionError FunctionKind :=
  match fdef.visibility, fdef.isEntry with
  | .vPrivate, true => .ok .privateEntry
  | .vFriend, true => .ok .privateEntry
  | .vPublic, true => .ok .publicEntry
  | .vPublic, false => .ok .nonEntry
  | .vPrivate, false =>
      if fromInit then
        if function = INIT_FN_NAME then .ok .init
        else .error (ExecutionError.fromKind .InvariantViolation)
      else if mode.allowArbitraryFunctionCalls then .ok .nonEntry
      else .error (ExecutionError.fromKind .NonEntryFunctionInvoked)
  | .vFriend, false =>
      if mode.allowArbitraryFunctionCalls then .ok .nonEntry
      else .error (ExecutionError.fromKind .NonEntryFunctionInvoked)

/-- Return-value classification per function kind: `init` must have no return
values, all other kinds go through `check_non_entry_signature`. -/
def returnKindsOf (mode : ExecMode) (functionKind : FunctionKind)
    (returns : List MoveType) : Except ExecutionError (List ValueKind) :=
  match functionKind with
  | .init =>
      if returns = [] then .ok []
      else .error (ExecutionError.fromKind .InvariantViolation)
  | _ => check_non_entry_signature mode returns

/-- Embedding of `check_visibility_and_signature`: resolve the function in the
loaded module; ban calling `init` from a transaction under the
`ban_entry_init` flag; classify the function kind from visibility and entry
flag; check the return signature; and run the private-generics check. -/
def check_visibility_and_signature (mode : ExecMode) (cfg : ProtocolConfig)
    (mdl : ModuleDef) (function : String) (fromInit : Bool) :
    Except ExecutionError LoadedFunctionInfo :=
  match findFunctionDefFrom mdl.functionDefs function 0 with
  | none => .error (ExecutionError.fromKind .FunctionNotFound)
  | some (index, fdef) =>
    if ¬fromInit ∧ function = INIT_FN_NAME ∧ cfg.banEntryInit then
      .error (ExecutionError.fromKind .NonEntryFunctionInvoked)
    else
      match functionKindOf mode fdef function fromInit with
      | .error e => .error e
      | .ok functionKind =>
        match returnKindsOf mode functionKind fdef.returns with
        | .error e => .error e
        | .ok returnValueKinds =>
          match check_private_generics mdl.addr mdl.name function with
          | .error e => .error e
          | .ok _ =>
            .ok ⟨functionKind, fdef.parameters, fdef.returns, returnValueKinds, index,
                 match fdef.codeLen with
                 | some len => len - 1
                 | none => 0⟩

/-- Kind of implicit transaction-context parameter (`TxContextKind`). -/
inductive TxContextKind where
  | noCtx
  | mutCtx
  | immCtx
deriving DecidableEq, Repr

/-- Embedding of `is_tx_context`: a (mutable) reference to the framework's
`TxContext` datatype. -/
def is_tx_context : MoveType → TxContextKind
  | .mutableReference (.datatype ident _) =>
      if ident = TX_CONTEXT_IDENT then .mutCtx else .noCtx
  | .reference (.datatype ident _) =>
      if ident = TX_CONTEXT_IDENT then .immCtx else .noCtx
  | _ => .noCtx

/-- Per-index argument resolution outcomes (the `context.borrow_arg_mut`,
`context.borrow_arg` and `context.by_value_arg` collaborators). -/
structure ResolveEnv where
  borrowMut : Nat → Except ExecutionError Value
  borrowShared : Nat → Except ExecutionError Value
  byValue : Nat → Except ExecutionError Value

/-- The external serde walk of `bcs_argument_validate` (outside the adapter's
control flow): whether the bytes decode against the layout. -/
structure CheckEnv where
  bcsValidate : PrimitiveArgumentLayout → List Nat → Bool

/-- The receiving-struct shape check at the end of the `Value::Receiving` arm
of `check_param_type`. -/
def receivingShapeCheck (paramTy : MoveType) (idx : Nat) : Except ExecutionError Unit :=
  match paramTy with
  | .datatypeInst ident _ targs =>
      if ident = RESOLVED_RECEIVING_STRUCT ∧ targs.length = 1 then .ok ()
      else .error (command_argument_error .TypeMismatch idx)
  | _ => .error (command_argument_error .TypeMismatch idx)

/-- Embedding of `check_param_type`: plain input bytes are accepted for any
type under the arbitrary-values mode (subject only to the amplification size
bound), otherwise only for primitive-compatible layouts and only if they
validate; loaded raw values and objects must match the expected type exactly;
receiving values must target the receiving struct. -/
def check_param_type (mode : ExecMode) (cfg : ProtocolConfig) (env : CheckEnv)
    (idx : Nat) (value : Value) (paramTy : MoveType) : Except ExecutionError Unit :=
  match value with
  | .raw .any bytes =>
      if mode.allowArbitraryValues then
        match amplification_bound_ mode cfg paramTy with
        | .error e => .error e
        | .ok none => .ok ()
        | .ok (some bound) =>
            if bytes.length ≤ bound then .ok ()
            else .error (ExecutionError.fromKind .ValueSizeExceeded)
      else
        match primitive_serialization_layout paramTy with
        | .error e => .error e
        | .ok none => .error (command_argument_error .InvalidUsageOfPureArg idx)
        | .ok (some layout) =>
            if env.bcsValidate layout bytes then .ok ()
            else .error (command_argument_error .InvalidBCSBytes idx)
  | .raw (.loaded ty abilities _) _ =>
      if ¬mode.allowArbitraryValues ∧ abilities.hasKey then
        .error (ExecutionError.fromKind .InvariantViolation)
      else if ty ≠ paramTy then .error (command_argument_error .TypeMismatch idx)
      else .ok ()
  | .object obj =>
      if obj.type_ ≠ paramTy then .error (command_argument_error .TypeMismatch idx)
      else .ok ()
  | .receiving _ _ assignedType =>
      match assignedType with
      | some t =>
          if t ≠ paramTy then .error (command_argument_error .TypeMismatch idx)
          else receivingShapeCheck paramTy idx
      | none => receivingShapeCheck paramTy idx

/-- Resolution discipline per parameter shape in `build_move_args`: mutable
reference borrows exclusively, reference borrows shared, all else consumes by
value. -/
def resolveArgValue (renv : ResolveEnv) (idx : Nat) (paramTy : MoveType) :
    Except ExecutionError Value :=
  match paramTy with
  | .mutableReference _ => renv.borrowMut idx
  | .reference _ => renv.borrowShared idx
  | _ => renv.byValue idx

/-- The value-kind recorded for a by-mutable-reference argument in
`build_move_args` (object info when the resolved value is an object, else the
raw inner type with its abilities). -/
def mutRefValueKind (value : Value) (inner : MoveType) : ValueKind :=
  match value with
  | .object o => .objectKind o.type_ o.hasPublicTransfer
  | _ => .rawKind inner (getTypeAbilities inner)

/-- One iteration of the argument loop of `build_move_args` at argument index
`idx` against parameter type `paramTy`: resolve the value, record by-mut-ref
metadata, reject non-entry-call-produced values for private-entry and `init`
callees before the type check, check the type, and serialize. -/
def buildArgStep (mode : ExecMode) (cfg : ProtocolConfig) (renv : ResolveEnv)
    (cenv : CheckEnv) (functionKind : FunctionKind) (idx : Nat) (paramTy : MoveType) :
    Except ExecutionError (Option (Nat × ValueKind) × List Nat) :=
  match resolveArgValue renv idx paramTy with
  | .error e => .error e
  | .ok value =>
    let info : Option (Nat × ValueKind) :=
      match paramTy with
      | .mutableReference inner => some (idx, mutRefValueKind value inner)
      | _ => none
    let nonRefParamTy : MoveType :=
      match paramTy with
      | .mutableReference inner => inner
      | .reference inner => inner
      | t => t
    if (functionKind = .privateEntry ∨ functionKind = .init)
        ∧ value.wasUsedInNonEntryMoveCall then
      .error (command_argument_error .InvalidArgumentToPrivateEntryFunction idx)
    else
      match check_param_type mode cfg cenv idx value nonRefParamTy with
      | .error e => .error e
      | .ok _ =>
        match value.writeBcsBytes none with
        | .error e => .error e
        | .ok bytes => .ok (info, bytes)

/-- The argument loop of `build_move_args`: explicit arguments are zipped with
the leading parameters, each processed by `buildArgStep`. -/
def buildArgsLoop (mode : ExecMode) (cfg : ProtocolConfig) (renv : ResolveEnv)
    (cenv : CheckEnv) (functionKind : FunctionKind) :
    List MoveType → Nat → Nat →
    Except ExecutionError (List (Nat × ValueKind) × List (List Nat))
  | _, _, 0 => .ok ([], [])
  | [], _, _ + 1 => .ok ([], [])
  | p :: ps, idx, r + 1 =>
    match buildArgStep mode cfg renv cenv functionKind idx p with
    | .error e => .error e
    | .ok (info, bytes) =>
      match buildArgsLoop mode cfg renv cenv functionKind ps (idx + 1) r with
      | .error e => .error e
      | .ok (infos, rest) =>
        .ok ((match info with
              | some i => i :: infos
              | none => infos),
             bytes :: rest)

/-- Kind of the implicit trailing transaction-context parameter, found by
inspecting the last declared parameter. -/
def txContextKindOf (parameters : List MoveType) : TxContextKind :=
  match parameters.getLast? with
  | some t => is_tx_context t
  | none => .noCtx

/-- Whether the callee takes the implicit one-time-witness argument: an `init`
function with two declared parameters. -/
def hasOneTimeWitness (functionKind : FunctionKind) (parameters : List MoveType) : Bool :=
  decide (functionKind = .init ∧ parameters.length = 2)

/-- The argument count after accounting for implicit parameters
(`num_args` in `build_move_args`). -/
def moveArgCount (functionKind : FunctionKind) (parameters : List MoveType)
    (numArgs : Nat) : Nat :=
  numArgs + (if hasOneTimeWitness functionKind parameters then 1 else 0)
    + (if decide (txContextKindOf parameters ≠ .noCtx) then 1 else 0)

/-- Embedding of `build_move_args`: determine the implicit trailing
transaction-context parameter and the implicit one-time-witness argument of
`init`, check arity exactly, and run the argument loop. Returns the context
kind, the by-mutable-reference metadata, and the serialized arguments (the
one-time witness serialized as the BCS `true` value up front). -/
def build_move_args (mode : ExecMode) (cfg : ProtocolConfig) (renv : ResolveEnv)
    (cenv : CheckEnv) (functionKind : FunctionKind) (parameters : List MoveType)
    (numArgs : Nat) :
    Except ExecutionError (TxContextKind × List (Nat × ValueKind) × List (List Nat)) :=
  if moveArgCount functionKind parameters numArgs ≠ parameters.length then
    .error (ExecutionError.fromKind .ArityMismatch)
  else
    match buildArgsLoop mode cfg renv cenv functionKind parameters 0 numArgs with
    | .error e => .error e
    | .ok (byMutRef, serialized) =>
        .ok (txContextKindOf parameters, byMutRef,
             (if hasOneTimeWitness functionKind parameters then [[1]] else [])
               ++ serialized)

/-- Modelled from the spec: `context.make_object_value` (`context.rs`, outside
`src/`) constructs an object value of the given type carrying the given
transfer and non-entry-call provenance flags, with contents decoded from the
bytes (modelled as raw struct bytes). -/
def make_object_value (ty : MoveType) (hasPublicTransfer usedInNonEntry : Bool)
    (bytes : List Nat) : ObjectValue :=
  ⟨ty, hasPublicTransfer, usedInNonEntry, .raw bytes⟩

/-- Embedding of `make_value`: wrap returned bytes as an object value (for
object kinds) or a loaded raw value, carrying the given provenance flag. -/
def make_value (kind : ValueKind) (bytes : List Nat) (usedInNonEntryMoveCall : Bool) :
    Value :=
  match kind with
  | .objectKind ty hpt => .object (make_object_value ty hpt usedInNonEntryMoveCall bytes)
  | .rawKind ty abilities => .raw (.loaded ty abilities usedInNonEntryMoveCall) bytes

/-- The mutable-reference write-back half of `write_back_results`: zip the VM's
by-mut-ref outputs with the recorded kinds (an index mismatch is an invariant
violation), building the values restored into their slots with the calling
function's non-entry flag. -/
def writeBackMutRefs (nonEntry : Bool) :
    List (Nat × List Nat) → List (Nat × ValueKind) →
    Except ExecutionError (List (Nat × Value))
  | [], _ => .ok []
  | _ :: _, [] => .ok []
  | (i, bytes) :: vs, (j, kind) :: ks =>
    if i ≠ j then .error (ExecutionError.fromKind .InvariantViolation)
    else
      match writeBackMutRefs nonEntry vs ks with
      | .error e => .error e
      | .ok rest => .ok ((i, make_value kind bytes nonEntry) :: rest)

/-- Embedding of `write_back_results`: restore by-mut-ref outputs, then wrap
every declared return value with the provenance flag set to true. Returns the
restored slot values and the command results. -/
def write_back_results (nonEntryMoveCall : Bool) (mutRefValues : List (Nat × List Nat))
    (mutRefKinds : List (Nat × ValueKind)) (returnValues : List (List Nat))
    (returnValueKinds : List ValueKind) :
    Except ExecutionError (List (Nat × Value) × List Value) :=
  match writeBackMutRefs nonEntryMoveCall mutRefValues mutRefKinds with
  | .error e => .error e
  | .ok restored =>
    .ok (restored,
         (returnValues.zip returnValueKinds).map (fun p => make_value p.2 p.1 true))

/-- A consumed upgrade ticket (`UpgradeTicket`, the fields the adapter reads). -/
structure UpgradeTicket where
  package : Nat
  digest : List Nat
  policy : Nat
deriving DecidableEq, Repr

/-- BCS bytes of `UpgradeReceipt::new(ticket, storage_id)`: the receipt pairing
the consumed ticket with the newly assigned storage identity (model encoding). -/
def encodeReceipt (ticket : UpgradeTicket) (storageId : Nat) : List Nat :=
  ticket.package :: (ticket.digest ++ [ticket.policy, storageId])

/-- Upgrade policies (`sui_types::move_package::UpgradePolicy`). -/
inductive UpgradePolicy where
  | compatible
  | additive
  | depOnly
deriving DecidableEq, Repr

/-- Modelled from the spec: the policy byte values of
`UpgradePolicy::try_from` (`sui_types::move_package`, outside `src/`):
COMPATIBLE is 0, ADDITIVE is 128, DEP_ONLY is 192, all else unknown. -/
def UpgradePolicy.tryFrom (policy : Nat) : Option UpgradePolicy :=
  if policy = 0 then some .compatible
  else if policy = 128 then some .additive
  else if policy = 192 then some .depOnly
  else none

/-- Collaborator outcomes for `check_compatibility`: normalization of the
existing package and the new modules into name-indexed normalized modules
(abstract tokens), and the three external module checks
(`InclusionCheck::Subset`, `InclusionCheck::Equal`,
`Compatibility::upgrade_check`). -/
structure CompatEnv where
  normalizeExisting : Nat → Option (List (String × Nat))
  normalizeNew : List Nat → List (String × Nat)
  subsetCheck : Nat → Nat → Bool
  equalCheck : Nat → Nat → Bool
  compatCheck : Nat → Nat → Bool

/-- Lookup by module name (`new_normalized.remove(&name)`, lookup half). -/
def assocGet (name : String) : List (String × Nat) → Option Nat
  | [] => none
  | (n, m) :: rest => if n = name then some m else assocGet name rest

/-- Removal by module name (`new_normalized.remove(&name)`, removal half). -/
def assocRemove (name : String) : List (String × Nat) → List (String × Nat)
  | [] => []
  | (n, m) :: rest => if n = name then rest else (n, m) :: assocRemove name rest

/-- Embedding of `check_module_compatibility`: dispatch on the policy to the
external check and map any failure to an incompatible-upgrade error. -/
def check_module_compatibility (env : CompatEnv) (policy : UpgradePolicy)
    (curModule newModule : Nat) : Except ExecutionError Unit :=
  let pass : Bool :=
    match policy with
    | .additive => env.subsetCheck curModule newModule
    | .depOnly => env.equalCheck curModule newModule
    | .compatible => env.compatCheck curModule newModule
  if pass then .ok ()
  else .error (ExecutionError.fromKind (.PackageUpgradeErrorKind .IncompatibleUpgrade))

/-- The per-existing-module loop of `check_compatibility`: every existing
module must appear in the new package and pass the per-module check. -/
def compatLoop (env : CompatEnv) (policy : UpgradePolicy) :
    List (String × Nat) → List (String × Nat) → Except ExecutionError Unit
  | [], _ => .ok ()
  | (name, cur) :: rest, newMods =>
    match assocGet name newMods with
    | none => .error (ExecutionError.fromKind (.PackageUpgradeErrorKind .IncompatibleUpgrade))
    | some nm =>
      match check_module_compatibility env policy cur nm with
      | .error e => .error e
      | .ok _ => compatLoop env policy rest (assocRemove name newMods)

/-- Embedding of `check_compatibility`: parse the policy byte (unknown policy
error otherwise), normalize the existing package, reject module-count changes
for dep-only packages under the protocol flag, and run the per-module loop. -/
def check_compatibility (cfg : ProtocolConfig) (env : CompatEnv)
    (existingPackage : Nat) (upgradingModules : List Nat) (policyByte : Nat) :
    Except ExecutionError Unit :=
  match UpgradePolicy.tryFrom policyByte with
  | none =>
      .error (ExecutionError.fromKind
        (.PackageUpgradeErrorKind (.UnknownUpgradePolicy policyByte)))
  | some policy =>
    match env.normalizeExisting existingPackage with
    | none => .error (ExecutionError.fromKind .InvariantViolation)
    | some currentNormalized =>
      let disallowNew : Bool :=
        cfg.disallowNewModulesInDepsOnlyPackages && decide (policy = UpgradePolicy.depOnly)
      if disallowNew ∧ currentNormalized.length ≠ upgradingModules.length then
        .error (ExecutionError.fromKind (.PackageUpgradeErrorKind .IncompatibleUpgrade))
      else compatLoop env policy currentNormalized (env.normalizeNew upgradingModules)

/-- Collaborator outcomes for one `Command::Upgrade` execution: gas charging,
loading the ticket and receipt types, resolving the ticket argument by value,
BCS-parsing the ticket, the deterministic digest over module bytes and
dependency ids, package fetching, module deserialization, the fresh storage
id, package construction, linkage save/restore, verification, and the
compatibility collaborators. -/
structure UpgradeEnv where
  chargeGas : Except ExecutionError Unit
  loadTicketType : Except ExecutionError MoveType
  loadReceiptType : Except ExecutionError MoveType
  resolveTicketArg : Except ExecutionError Value
  parseTicket : List Nat → Option UpgradeTicket
  computeDigest : List (List Nat) → List Nat → List Nat
  fetchCurrentPackage : Nat → Except ExecutionError Nat
  deserializeModules : Except ExecutionError (List Nat)
  freshStorageId : Nat
  fetchDeps : Except ExecutionError (List Nat)
  upgradePackage : Except ExecutionError Nat
  setLinkage : Except ExecutionError Unit
  resetLinkage : Except ExecutionError Unit
  verifyModules : Except ExecutionError Unit
  checkEnv : CheckEnv
  compatEnv : CompatEnv

/-- Embedding of `execute_move_upgrade`: charge gas; resolve, type-check,
size-check and parse the upgrade ticket; require the supplied package id to
equal the ticket's bound package id (package-id-does-not-match error
otherwise); require the digest computed over the new module bytes and declared
dependency ids to equal the ticket's digest (digest-does-not-match error
otherwise); fetch and re-identify the package; verify; check compatibility
under the ticket's policy; and only then write the new package to the package
table and mint the upgrade receipt. Returns the command result and the
resulting package table. -/
def execute_move_upgrade (mode : ExecMode) (cfg : ProtocolConfig) (env : UpgradeEnv)
    (moduleBytes : List (List Nat)) (depIds : List Nat) (currentPackageId : Nat)
    (packages : List Nat) : Except ExecutionError (List Value) × List Nat :=
  match env.chargeGas with
  | .error e => (.error e, packages)
  | .ok _ =>
  match env.loadTicketType with
  | .error e => (.error e, packages)
  | .ok upgradeTicketType =>
  match env.loadReceiptType with
  | .error e => (.error e, packages)
  | .ok upgradeReceiptType =>
  match env.resolveTicketArg with
  | .error e => (.error e, packages)
  | .ok ticketVal =>
  match check_param_type mode cfg env.checkEnv 0 ticketVal upgradeTicketType with
  | .error e => (.error e, packages)
  | .ok _ =>
  match amplification_bound mode cfg upgradeTicketType with
  | .error e => (.error e, packages)
  | .ok bound =>
  match ticketVal.writeBcsBytes bound with
  | .error e => (.error e, packages)
  | .ok ticketBytes =>
  match env.parseTicket ticketBytes with
  | none => (.error (command_argument_error .InvalidBCSBytes 0), packages)
  | some upgradeTicket =>
  if currentPackageId ≠ upgradeTicket.package then
    (.error (ExecutionError.fromKind (.PackageUpgradeErrorKind
        (.PackageIDDoesNotMatch currentPackageId upgradeTicket.package))), packages)
  else
    if env.computeDigest moduleBytes depIds ≠ upgradeTicket.digest then
      (.error (ExecutionError.fromKind (.PackageUpgradeErrorKind
          (.DigestDoesNotMatch (env.computeDigest moduleBytes depIds)))), packages)
    else
      match env.fetchCurrentPackage upgradeTicket.package with
      | .error e => (.error e, packages)
      | .ok currentPackage =>
      match env.deserializeModules with
      | .error e => (.error e, packages)
      | .ok modules =>
        match env.fetchDeps with
        | .error e => (.error e, packages)
        | .ok _deps =>
        match env.upgradePackage with
        | .error e => (.error e, packages)
        | .ok pkg =>
        match env.setLinkage with
        | .error e => (.error e, packages)
        | .ok _ =>
        match env.resetLinkage with
        | .error e => (.error e, packages)
        | .ok _ =>
        match env.verifyModules with
        | .error e => (.error e, packages)
        | .ok _ =>
        match check_compatibility cfg env.compatEnv currentPackage modules
            upgradeTicket.policy with
        | .error e => (.error e, packages)
        | .ok _ =>
          (.ok [Value.raw (.loaded upgradeReceiptType AbilitySet.empty false)
              (encodeReceipt upgradeTicket env.freshStorageId)],
           packages ++ [pkg])

/-- Consecutive indices starting at `start` (model helper for the attempted
command indices). -/
def rangeFrom (start : Nat) : Nat → List Nat
  | 0 => []
  | len + 1 => start :: rangeFrom (start + 1) len

/-- Closed form of the values produced by the split-coins amount loop: one new
coin object per amount, with consecutively assigned fresh ids. -/
def splitValues (coinType : MoveType) : List Nat → Nat → List Value
  | [], _ => []
  | a :: rest, ctr =>
      Value.object (ObjectValue.coinValue coinType ⟨ctr, a⟩)
        :: splitValues coinType rest (ctr + 1)

/-- Computed amplification of a determined primitive layout is never zero. -/
theorem amplification_pos (l : PrimitiveArgumentLayout) : 0 < l.amplification := by
  induction l with
  | option inner ih => simp [PrimitiveArgumentLayout.amplification]
  | vector inner ih => simpa [PrimitiveArgumentLayout.amplification] using ih
  | _ => simp [PrimitiveArgumentLayout.amplification]

/-- When enforcement is active and the layout is determined, the bound is the
budget divided by the layout's amplification. -/
theorem amplification_bound_of_layout (mode : ExecMode) (cfg : ProtocolConfig) (B : Nat)
    (hpre : mode.packagesArePredefined = false) (hB : cfg.maxPtbValueSize = some B)
    (hd : 0 < cfg.maxMoveValueDepth) (t : MoveType) (l : PrimitiveArgumentLayout)
    (hl : primitive_serialization_layout t = .ok (some l)) :
    amplification_bound_ mode cfg t = .ok (some (B / l.amplification)) := by
  have hdz : cfg.maxMoveValueDepth ≠ 0 := Nat.pos_iff_ne_zero.mp hd
  have hlz : l.amplification ≠ 0 := Nat.pos_iff_ne_zero.mp (amplification_pos l)
  simp [amplification_bound_, hpre, hB, hl, hdz, hlz]

/-- When enforcement is active and no primitive layout is determined, the bound
is the budget divided by the configured maximum move value depth. -/
theorem amplification_bound_of_no_layout (mode : ExecMode) (cfg : ProtocolConfig) (B : Nat)
    (hpre : mode.packagesArePredefined = false) (hB : cfg.maxPtbValueSize = some B)
    (hd : 0 < cfg.maxMoveValueDepth) (t : MoveType)
    (hl : primitive_serialization_layout t = .ok none) :
    amplification_bound_ mode cfg t = .ok (some (B / cfg.maxMoveValueDepth)) := by
  have hdz : cfg.maxMoveValueDepth ≠ 0 := Nat.pos_iff_ne_zero.mp hd
  simp [amplification_bound_, hpre, hB, hl, hdz]

/-- An option instantiation of a type with a determined layout has the option
layout over it. -/
theorem psl_option (a : AbilitySet) (t : MoveType) (l : PrimitiveArgumentLayout)
    (hl : primitive_serialization_layout t = .ok (some l)) :
    primitive_serialization_layout (.datatypeInst RESOLVED_STD_OPTION a (.cons t .nil))
      = .ok (some (.option l)) := by
  simp [primitive_serialization_layout, hl]

/-- C8: with amplification enforcement enabled (not a predefined-packages mode,
and a global size budget `B` configured), the admissible serialized length for a
parameter type is `B` divided by the type's amplification factor: factor 1 for
booleans and integers up to 64 bits; factor 2 for 128/256-bit integers,
addresses and strings; one plus the inner factor for each option layer; and the
configured maximum move value depth when no primitive layout can be determined.
With `B = 100` a 1-byte scalar admits length 100 and one option layer strictly
reduces the admissible length to 50. The copy-ability wrapper agrees with the
underlying bound for copyable types. -/
theorem C8_amplification_bound_formula (mode : ExecMode) (cfg : ProtocolConfig) (B : Nat)
    (hpre : mode.packagesArePredefined = false)
    (hB : cfg.maxPtbValueSize = some B)
    (hd : 0 < cfg.maxMoveValueDepth) :
    (∀ t : MoveType, t = .bool ∨ t = .u8 ∨ t = .u16 ∨ t = .u32 ∨ t = .u64 →
        amplification_bound_ mode cfg t = .ok (some (B / 1)))
    ∧ (∀ t : MoveType, t = .u128 ∨ t = .u256 ∨ t = .address →
        amplification_bound_ mode cfg t = .ok (some (B / 2)))
    ∧ (∀ a : AbilitySet,
        amplification_bound_ mode cfg (.datatype RESOLVED_ASCII_STR a) = .ok (some (B / 2))
        ∧ amplification_bound_ mode cfg (.datatype RESOLVED_UTF8_STR a) = .ok (some (B / 2)))
    ∧ (∀ (t : MoveType) (a : AbilitySet) (l : PrimitiveArgumentLayout),
        primitive_serialization_layout t = .ok (some l) →
        amplification_bound_ mode cfg (.datatypeInst RESOLVED_STD_OPTION a (.cons t .nil))
          = .ok (some (B / (1 + l.amplification))))
    ∧ (∀ t : MoveType, primitive_serialization_layout t = .ok none →
        amplification_bound_ mode cfg t = .ok (some (B / cfg.maxMoveValueDepth)))
    ∧ (∀ t : MoveType, (getTypeAbilities t).hasCopy = true →
        amplification_bound mode cfg t = amplification_bound_ mode cfg t)
    ∧ (B = 100 →
        amplification_bound_ mode cfg .u8 = .ok (some 100)
        ∧ (∀ a : AbilitySet,
            amplification_bound_ mode cfg
                (.datatypeInst RESOLVED_STD_OPTION a (.cons .u8 .nil)) = .ok (some 50))
        ∧ (50 : Nat) < 100) := by
  refine ⟨?_, ?_, ?_, ?_, ?_, ?_, ?_⟩
  · rintro t (rfl | rfl | rfl | rfl | rfl)
    · exact amplification_bound_of_layout mode cfg B hpre hB hd .bool .bool rfl
    · exact amplification_bound_of_layout mode cfg B hpre hB hd .u8 .u8 rfl
    · exact amplification_bound_of_layout mode cfg B hpre hB hd .u16 .u16 rfl
    · exact amplification_bound_of_layout mode cfg B hpre hB hd .u32 .u32 rfl
    · exact amplification_bound_of_layout mode cfg B hpre hB hd .u64 .u64 rfl
  · rintro t (rfl | rfl | rfl)
    · exact amplification_bound_of_layout mode cfg B hpre hB hd .u128 .u128 rfl
    · exact amplification_bound_of_layout mode cfg B hpre hB hd .u256 .u256 rfl
    · exact amplification_bound_of_layout mode cfg B hpre hB hd .address .address rfl
  · intro a
    constructor
    · exact amplification_bound_of_layout mode cfg B hpre hB hd
        (.datatype RESOLVED_ASCII_STR a) .ascii rfl
    · exact amplification_bound_of_layout mode cfg B hpre hB hd
        (.datatype RESOLVED_UTF8_STR a) .utf8 rfl
  · intro t a l hl
    have h := amplification_bound_of_layout mode cfg B hpre hB hd
      (.datatypeInst RESOLVED_STD_OPTION a (.cons t .nil)) (.option l) (psl_option a t l hl)
    simpa [PrimitiveArgumentLayout.amplification] using h
  · intro t hl
    exact amplification_bound_of_no_layout mode cfg B hpre hB hd t hl
  · intro t hcopy
    simp [amplification_bound, hcopy]
  · rintro rfl
    refine ⟨?_, ?_, by norm_num⟩
    · simpa using amplification_bound_of_layout mode cfg 100 hpre hB hd .u8 .u8 rfl
    · intro a
      have h := amplification_bound_of_layout mode cfg 100 hpre hB hd
        (.datatypeInst RESOLVED_STD_OPTION a (.cons .u8 .nil)) (.option .u8)
        (psl_option a .u8 .u8 rfl)
      simpa [PrimitiveArgumentLayout.amplification] using h

/-- Witness for C8 at a concrete configuration: budget 100, depth 128. -/
theorem C8_amplification_bound_formula_witness :
    amplification_bound_ ⟨false, false, false⟩ ⟨some 100, 128, false, false, false⟩ .u8
      = .ok (some 100)
    ∧ amplification_bound_ ⟨false, false, false⟩ ⟨some 100, 128, false, false, false⟩
        (.datatypeInst RESOLVED_STD_OPTION AbilitySet.empty (.cons .u8 .nil))
      = .ok (some 50) := by
  have h := C8_amplification_bound_formula ⟨false, false, false⟩
    ⟨some 100, 128, false, false, false⟩ 100 rfl rfl (by norm_num)
  obtain ⟨-, -, -, -, -, -, hinst⟩ := h
  obtain ⟨h1, h2, -⟩ := hinst rfl
  exact ⟨h1, h2 AbilitySet.empty⟩

/-- The command loop aborts at the first failing command: `i` success timings
then one abort, exactly the indices up to the failure attempted, the loaded
objects saved, and the error tagged with the failing index. -/
theorem executeCommandsFrom_fail {σ : Type} (exec : Nat → σ → Except ExecutionError σ)
    (e : ExecutionError) :
    ∀ (i start n : Nat), i < n →
    ∀ traj : Nat → σ,
    (∀ j, j < i → exec (start + j) (traj j) = .ok (traj (j + 1))) →
    exec (start + i) (traj i) = .error e →
    ∀ st : LoopState,
    executeCommandsFrom exec start n (traj 0) st =
      (.error (e.withCommandIndex (start + i)),
       { st with
          timings := st.timings ++ (List.replicate i .success ++ [.abort])
          attempted := st.attempted ++ rangeFrom start (i + 1)
          savedLoadedObjects := true }) := by
  intro i
  induction i with
  | zero =>
      intro start n hn traj hsucc hfail st
      obtain ⟨m, rfl⟩ : ∃ m, n = m + 1 := ⟨n - 1, by omega⟩
      have hfail0 : exec start (traj 0) = .error e := hfail
      simp only [executeCommandsFrom, hfail0]
      simp [rangeFrom]
  | succ i ih =>
      intro start n hn traj hsucc hfail st
      obtain ⟨m, rfl⟩ : ∃ m, n = m + 1 := ⟨n - 1, by omega⟩
      have hstep : exec start (traj 0) = .ok (traj 1) := by
        simpa using hsucc 0 (Nat.succ_pos i)
      have hsucc2 : ∀ j, j < i →
          exec (start + 1 + j) ((fun k => traj (k + 1)) j)
            = .ok ((fun k => traj (k + 1)) (j + 1)) := by
        intro j hj
        have := hsucc (j + 1) (by omega)
        simpa [Nat.add_assoc, Nat.add_comm, Nat.add_left_comm] using this
      have hfail2 : exec (start + 1 + i) ((fun k => traj (k + 1)) i) = .error e := by
        have := hfail
        simpa [Nat.add_assoc, Nat.add_comm, Nat.add_left_comm] using this
      have hmi : i < m := by omega
      have hrec := ih (start + 1) m hmi (fun k => traj (k + 1)) hsucc2 hfail2
      simp only [executeCommandsFrom, hstep]
      rw [hrec]
      have harith : start + 1 + i = start + (i + 1) := by omega
      simp [rangeFrom, List.replicate_succ, List.append_assoc, harith]

/-- Membership in a consecutive index range. -/
theorem mem_rangeFrom : ∀ (len start j : Nat),
    j ∈ rangeFrom start len ↔ start ≤ j ∧ j < start + len := by
  intro len
  induction len with
  | zero =>
      intro start j
      simp [rangeFrom]
  | succ n ih =>
      intro start j
      rw [rangeFrom, List.mem_cons, ih (start + 1) j]
      omega

/-- C1: for every programmable transaction whose command at index `i` is the
first to fail, `execute_inner` returns the error tagged with command index `i`,
records exactly `i` success timing entries followed by one abort entry, never
attempts commands at indices greater than `i` (the attempted indices are
exactly `0..i`), and still saves the loaded objects to the state view on that
failure path. -/
theorem C1_execute_inner_first_failure {σ : Type}
    (exec : Nat → σ → Except ExecutionError σ)
    (finish : σ → Except ExecutionError Unit) (numCommands : Nat) (traj : Nat → σ)
    (i : Nat) (e : ExecutionError)
    (hi : i < numCommands)
    (hsucc : ∀ j, j < i → exec j (traj j) = .ok (traj (j + 1)))
    (hfail : exec i (traj i) = .error e) :
    (execute_inner exec finish numCommands (traj 0)).1 = .error (e.withCommandIndex i)
    ∧ (execute_inner exec finish numCommands (traj 0)).2.timings
        = List.replicate i .success ++ [.abort]
    ∧ (execute_inner exec finish numCommands (traj 0)).2.attempted = rangeFrom 0 (i + 1)
    ∧ (∀ j ∈ (execute_inner exec finish numCommands (traj 0)).2.attempted, j ≤ i)
    ∧ (execute_inner exec finish numCommands (traj 0)).2.savedLoadedObjects = true := by
  have hsucc0 : ∀ j, j < i → exec (0 + j) (traj j) = .ok (traj (j + 1)) := by
    intro j hj
    simpa using hsucc j hj
  have hfail0 : exec (0 + i) (traj i) = .error e := by simpa using hfail
  have h := executeCommandsFrom_fail exec e i 0 numCommands hi traj hsucc0 hfail0
    LoopState.initial
  have hinner : execute_inner exec finish numCommands (traj 0) =
      (.error ((e.withCommandIndex (0 + i))),
       { LoopState.initial with
          timings := LoopState.initial.timings
            ++ (List.replicate i .success ++ [.abort])
          attempted := LoopState.initial.attempted ++ rangeFrom 0 (i + 1)
          savedLoadedObjects := true }) := by
    simp only [execute_inner, h]
  rw [hinner]
  refine ⟨by simp, by simp [LoopState.initial], ?_, ?_, rfl⟩
  · simp [LoopState.initial]
  · intro j hj
    simp only [LoopState.initial] at hj
    rw [List.nil_append, mem_rangeFrom] at hj
    omega

/-- Witness for C1: a two-command transaction whose second command fails. -/
theorem C1_execute_inner_first_failure_witness :
    (execute_inner
        (fun idx (ctx : Nat) =>
          if idx < 1 then .ok ctx
          else .error (ExecutionError.fromKind .ArityMismatch))
        (fun _ => .ok ()) 2 0).1
      = .error ⟨.ArityMismatch, some 1⟩
    ∧ (execute_inner
        (fun idx (ctx : Nat) =>
          if idx < 1 then .ok ctx
          else .error (ExecutionError.fromKind .ArityMismatch))
        (fun _ => .ok ()) 2 0).2.timings
      = [.success, .abort]
    ∧ (execute_inner
        (fun idx (ctx : Nat) =>
          if idx < 1 then .ok ctx
          else .error (ExecutionError.fromKind .ArityMismatch))
        (fun _ => .ok ()) 2 0).2.savedLoadedObjects = true := by
  have h := C1_execute_inner_first_failure
    (fun idx (ctx : Nat) =>
      if idx < 1 then .ok ctx
      else .error (ExecutionError.fromKind .ArityMismatch))
    (fun _ => .ok ()) 2 (fun _ => 0) 1 (ExecutionError.fromKind .ArityMismatch)
    (by omega)
    (by intro j hj; simp [show j < 1 from hj])
    (by simp)
  obtain ⟨h1, h2, h3, h4, h5⟩ := h
  exact ⟨h1, by simpa using h2, h5⟩

/-- The amount loop succeeds when the amounts fit in the balance, producing the
closed-form values, the decremented source, and the advanced id counter. -/
theorem splitCoinsLoop_ok (coinType : MoveType) :
    ∀ (amounts : List Nat) (coin : Coin) (ctr : Nat),
    amounts.sum ≤ coin.balance →
    splitCoinsLoop coinType (amounts.map Except.ok) coin ctr =
      .ok (splitValues coinType amounts ctr,
           ⟨coin.id, coin.balance - amounts.sum⟩, ctr + amounts.length) := by
  intro amounts
  induction amounts with
  | nil =>
      intro coin ctr h
      simp [splitCoinsLoop, splitValues]
  | cons a rest ih =>
      intro coin ctr h
      rw [List.sum_cons] at h
      have ha : a ≤ coin.balance := by omega
      have hsplit : Coin.split coin a ctr =
          .ok ({ coin with balance := coin.balance - a }, ⟨ctr, a⟩) := by
        simp [Coin.split, ha]
      have hrest : rest.sum ≤ ({ coin with balance := coin.balance - a } : Coin).balance := by
        simp only []
        omega
      have hrec := ih { coin with balance := coin.balance - a } (ctr + 1) hrest
      simp only [List.map_cons, splitCoinsLoop, hsplit, hrec, splitValues]
      have h1 : coin.balance - a - rest.sum = coin.balance - (a + rest.sum) := by omega
      have h2 : ctr + 1 + rest.length = ctr + (rest.length + 1) := by omega
      simp [h1, h2, List.sum_cons]

/-- The amount loop fails with an insufficient-balance error when the amounts
exceed the balance. -/
theorem splitCoinsLoop_fail (coinType : MoveType) :
    ∀ (amounts : List Nat) (coin : Coin) (ctr : Nat),
    coin.balance < amounts.sum →
    splitCoinsLoop coinType (amounts.map Except.ok) coin ctr =
      .error (ExecutionError.fromKind .InsufficientCoinBalance) := by
  intro amounts
  induction amounts with
  | nil =>
      intro coin ctr h
      rw [List.sum_nil] at h
      omega
  | cons a rest ih =>
      intro coin ctr h
      rw [List.sum_cons] at h
      by_cases ha : a ≤ coin.balance
      · have hrest : ({ coin with balance := coin.balance - a } : Coin).balance < rest.sum := by
          simp only []
          omega
        have hsplit : Coin.split coin a ctr =
            .ok ({ coin with balance := coin.balance - a }, ⟨ctr, a⟩) := by
          simp [Coin.split, ha]
        simp only [List.map_cons, splitCoinsLoop, hsplit,
          ih { coin with balance := coin.balance - a } (ctr + 1) hrest]
      · have hsplit : Coin.split coin a ctr =
            .error (ExecutionError.fromKind .InsufficientCoinBalance) := by
          simp [Coin.split, ha]
        simp only [List.map_cons, splitCoinsLoop, hsplit]

/-- The split-coins loop produces exactly one value per amount. -/
theorem splitValues_length (ty : MoveType) :
    ∀ (amounts : List Nat) (ctr : Nat),
    (splitValues ty amounts ctr).length = amounts.length := by
  intro amounts
  induction amounts with
  | nil => intro ctr; simp [splitValues]
  | cons a rest ih => intro ctr; simp [splitValues, ih]

/-- The `k`-th split value is a coin object of the source's type with balance
equal to the `k`-th amount and the `k`-th consecutively assigned fresh id. -/
theorem splitValues_get (ty : MoveType) :
    ∀ (amounts : List Nat) (ctr k a : Nat), amounts[k]? = some a →
    (splitValues ty amounts ctr)[k]? =
      some (.object ⟨ty, true, false, .coin ⟨ctr + k, a⟩⟩) := by
  intro amounts
  induction amounts with
  | nil =>
      intro ctr k a h
      simp at h
  | cons x rest ih =>
      intro ctr k a h
      cases k with
      | zero =>
          simp at h
          subst h
          simp [splitValues, ObjectValue.coinValue]
      | succ k =>
          rw [List.getElem?_cons_succ] at h
          have hrec := ih (ctr + 1) k a h
          have harith : ctr + 1 + k = ctr + (k + 1) := by omega
          rw [harith] at hrec
          simpa [splitValues] using hrec

/-- C3: a split-coins command on a source coin of balance `V` with amounts
`a1..an` summing to at most `V` produces exactly `n` new coins of those
balances, each with a fresh (consecutively assigned, pairwise distinct) id and
the source's coin type, and restores the source decremented by the sum; if the
sum exceeds `V` the command fails without producing results or a restored
source. -/
theorem C3_split_coins_balance (obj : ObjectValue) (coin : Coin)
    (amounts : List Nat) (ctr : Nat)
    (hcontents : obj.contents = .coin coin) :
    (amounts.sum ≤ coin.balance →
      execute_split_coins (.ok obj) (amounts.map Except.ok) ctr =
        .ok (splitValues obj.type_ amounts ctr,
             .object { obj with contents := .coin ⟨coin.id, coin.balance - amounts.sum⟩ },
             ctr + amounts.length)
      ∧ (splitValues obj.type_ amounts ctr).length = amounts.length
      ∧ (∀ (k a : Nat), amounts[k]? = some a →
          (splitValues obj.type_ amounts ctr)[k]? =
            some (.object ⟨obj.type_, true, false, .coin ⟨ctr + k, a⟩⟩))
      ∧ (∀ k1 k2 : Nat, k1 ≠ k2 → ctr + k1 ≠ ctr + k2))
    ∧ (coin.balance < amounts.sum →
        execute_split_coins (.ok obj) (amounts.map Except.ok) ctr =
          .error (ExecutionError.fromKind .InsufficientCoinBalance)) := by
  constructor
  · intro hsum
    refine ⟨?_, splitValues_length obj.type_ amounts ctr,
            splitValues_get obj.type_ amounts ctr, fun k1 k2 h => by omega⟩
    simp only [execute_split_coins, hcontents,
      splitCoinsLoop_ok obj.type_ amounts coin ctr hsum]
  · intro hsum
    simp only [execute_split_coins, hcontents,
      splitCoinsLoop_fail obj.type_ amounts coin ctr hsum]

/-- Witness for C3: splitting a coin of balance 100 into amounts 30 and 20. -/
theorem C3_split_coins_balance_witness :
    execute_split_coins (.ok ⟨.u64, true, false, .coin ⟨10, 100⟩⟩)
        ([30, 20].map Except.ok) 50 =
      .ok ([.object ⟨.u64, true, false, .coin ⟨50, 30⟩⟩,
            .object ⟨.u64, true, false, .coin ⟨51, 20⟩⟩],
           .object ⟨.u64, true, false, .coin ⟨10, 50⟩⟩, 52) := by
  have h := C3_split_coins_balance ⟨.u64, true, false, .coin ⟨10, 100⟩⟩ ⟨10, 100⟩
    [30, 20] 50 rfl
  have h2 := (h.1 (by norm_num)).1
  simpa [splitValues, ObjectValue.coinValue] using h2

/-- Sequencing of all-successful resolutions yields the resolved list. -/
theorem exceptSequence_map_ok {α : Type} :
    ∀ xs : List α, exceptSequence (xs.map Except.ok) = .ok xs := by
  intro xs
  induction xs with
  | nil => simp [exceptSequence]
  | cons x rest ih => simp [exceptSequence, ih]

/-- The merge loop over all-matching coins adds every balance to the target and
deletes every merged coin id, in order. -/
theorem mergeCoinsLoop_all_match (targetType : MoveType) :
    ∀ (objs : List ObjectValue) (idx : Nat) (tc : Coin) (deleted : List Nat),
    (∀ o ∈ objs, o.type_ = targetType ∧ ∃ c, o.contents = .coin c) →
    mergeCoinsLoop targetType objs idx tc deleted =
      .ok (⟨tc.id, tc.balance + (objs.map ObjectValue.coinBalance).sum⟩,
           deleted ++ objs.map ObjectValue.coinId) := by
  intro objs
  induction objs with
  | nil =>
      intro idx tc deleted h
      simp [mergeCoinsLoop]
  | cons o rest ih =>
      intro idx tc deleted h
      obtain ⟨hty, c, hc⟩ := h o (List.mem_cons_self o rest)
      have hrest : ∀ x ∈ rest, x.type_ = targetType ∧ ∃ c2, x.contents = .coin c2 :=
        fun x hx => h x (List.mem_cons_of_mem o hx)
      have hne : ¬(o.type_ ≠ targetType) := by simp [hty]
      simp only [mergeCoinsLoop, if_neg hne, hc]
      rw [ih (idx + 1) (Coin.add tc c.balance) (deleted ++ [c.id]) hrest]
      have hbal : (Coin.add tc c.balance).balance + (rest.map ObjectValue.coinBalance).sum
          = tc.balance + ((o :: rest).map ObjectValue.coinBalance).sum := by
        simp [Coin.add, ObjectValue.coinBalance, hc]
        omega
      have hid : (Coin.add tc c.balance).id = tc.id := rfl
      simp [Coin.add, ObjectValue.coinBalance, ObjectValue.coinId, hc, List.append_assoc]
      omega

/-- The merge loop fails with a type mismatch at the first mismatched coin's
argument index (one past its position, accounting for the target argument). -/
theorem mergeCoinsLoop_mismatch (targetType : MoveType) :
    ∀ (objs : List ObjectValue) (j : Nat) (idx : Nat) (tc : Coin) (deleted : List Nat)
      (oj : ObjectValue),
    objs[j]? = some oj → oj.type_ ≠ targetType →
    (∀ k o, k < j → objs[k]? = some o →
        o.type_ = targetType ∧ ∃ c, o.contents = .coin c) →
    mergeCoinsLoop targetType objs idx tc deleted =
      .error (command_argument_error .TypeMismatch (idx + j + 1)) := by
  intro objs
  induction objs with
  | nil =>
      intro j idx tc deleted oj hj
      simp at hj
  | cons o rest ih =>
      intro j idx tc deleted oj hj hne hbefore
      cases j with
      | zero =>
          simp at hj
          subst hj
          simp [mergeCoinsLoop, hne]
      | succ j =>
          rw [List.getElem?_cons_succ] at hj
          obtain ⟨hty, c, hc⟩ := hbefore 0 o (Nat.succ_pos j) (by simp)
          have hno : ¬(o.type_ ≠ targetType) := by simp [hty]
          have hbefore2 : ∀ k o2, k < j → rest[k]? = some o2 →
              o2.type_ = targetType ∧ ∃ c2, o2.contents = .coin c2 := by
            intro k o2 hk hk2
            exact hbefore (k + 1) o2 (by omega) (by simpa using hk2)
          have hrec := ih j (idx + 1) (Coin.add tc c.balance) (deleted ++ [c.id]) oj hj
            hne hbefore2
          have harith : idx + 1 + j + 1 = idx + (j + 1) + 1 := by omega
          rw [harith] at hrec
          simp only [mergeCoinsLoop, if_neg hno, hc, hrec]

/-- C4: a merge-coins command whose target has balance `B` and whose merged
coins all have the target's type restores the target with balance `B` plus the
sum of the merged balances and deletes each merged coin's id; a merged coin of
a different type fails with a type-mismatch error at that argument's index
(its position offset by one for the target argument); a non-coin target fails
with a type-mismatch error at index 0. -/
theorem C4_merge_coins (target : ObjectValue) :
    (∀ (tc : Coin) (objs : List ObjectValue),
        target.contents = .coin tc →
        (∀ o ∈ objs, o.type_ = target.type_ ∧ ∃ c, o.contents = .coin c) →
        execute_merge_coins (.ok target) (objs.map Except.ok) =
          .ok (.object { target with contents :=
                  ObjectContents.coin ⟨tc.id,
                    tc.balance + (objs.map ObjectValue.coinBalance).sum⟩ },
               objs.map ObjectValue.coinId))
    ∧ (∀ (tc : Coin) (objs : List ObjectValue) (j : Nat) (oj : ObjectValue),
        target.contents = .coin tc →
        objs[j]? = some oj → oj.type_ ≠ target.type_ →
        (∀ k o, k < j → objs[k]? = some o →
            o.type_ = target.type_ ∧ ∃ c, o.contents = .coin c) →
        execute_merge_coins (.ok target) (objs.map Except.ok) =
          .error (command_argument_error .TypeMismatch (j + 1)))
    ∧ (∀ (bytes : List Nat) (coinArgs : List (Except ExecutionError ObjectValue)),
        target.contents = .raw bytes →
        execute_merge_coins (.ok target) coinArgs =
          .error (command_argument_error .TypeMismatch 0)) := by
  refine ⟨?_, ?_, ?_⟩
  · intro tc objs hc hall
    simp only [execute_merge_coins, hc, exceptSequence_map_ok objs,
      mergeCoinsLoop_all_match target.type_ objs 0 tc [] hall]
    simp
  · intro tc objs j oj hc hj hne hbefore
    have hrec := mergeCoinsLoop_mismatch target.type_ objs j 0 tc [] oj hj hne hbefore
    have harith : 0 + j + 1 = j + 1 := by omega
    rw [harith] at hrec
    simp only [execute_merge_coins, hc, exceptSequence_map_ok objs, hrec]
  · intro bytes coinArgs hc
    simp only [execute_merge_coins, hc]

/-- Witness for C4: merging one same-type coin of balance 7 into a target of
balance 5. -/
theorem C4_merge_coins_witness :
    execute_merge_coins (.ok ⟨.u64, true, false, .coin ⟨1, 5⟩⟩)
        ([(⟨.u64, true, false, .coin ⟨2, 7⟩⟩ : ObjectValue)].map Except.ok) =
      .ok (.object ⟨.u64, true, false, .coin ⟨1, 12⟩⟩, [2]) := by
  have h := (C4_merge_coins ⟨.u64, true, false, .coin ⟨1, 5⟩⟩).1 ⟨1, 5⟩
    [⟨.u64, true, false, .coin ⟨2, 7⟩⟩] rfl
    (by
      intro o ho
      simp at ho
      subst ho
      exact ⟨rfl, ⟨2, 7⟩, rfl⟩)
  simpa [ObjectValue.coinBalance, ObjectValue.coinId] using h

/-- C7: if bytecode verification of the new modules or any module's `init`
execution fails during a publish command, the optimistically written package is
removed from the transaction-local package table as a whole (the table is
exactly what it was before the command), and the original verification or init
error is returned unchanged. -/
theorem C7_publish_rollback (env : PublishEnv) (predefined : Bool) (packages : List Nat)
    (pkg : Nat) (e : ExecutionError)
    (hgas : env.chargeGas = .ok ())
    (hdeser : ∃ ms, env.deserializeModules = .ok ms)
    (hdeps : ∃ ds, env.fetchDeps = .ok ds)
    (hnew : env.newPackage = .ok pkg)
    (hset : env.setLinkage = .ok ())
    (hreset : env.resetLinkage = .ok ())
    (hfail : env.verifyModules = .error e
        ∨ (env.verifyModules = .ok () ∧ env.initResult = .error e)) :
    execute_move_publish env predefined packages = (.error e, packages) := by
  obtain ⟨ms, hms⟩ := hdeser
  obtain ⟨ds, hds⟩ := hdeps
  rcases hfail with hv | ⟨hv, hi⟩
  · simp only [execute_move_publish, hgas, hms, hds, hnew, hset, hreset, hv]
    simp
  · simp only [execute_move_publish, hgas, hms, hds, hnew, hset, hreset, hv, hi]
    simp

/-- Witness for C7: a publish whose verification fails. -/
theorem C7_publish_rollback_witness :
    execute_move_publish
        ⟨.ok (), .ok [1], .ok [], .ok 5, .ok (), .ok (),
         .error (ExecutionError.fromKind (.VMError 3)), .ok (),
         .ok (.raw .any [])⟩ false [9] =
      (.error (ExecutionError.fromKind (.VMError 3)), [9]) := by
  exact C7_publish_rollback
    ⟨.ok (), .ok [1], .ok [], .ok 5, .ok (), .ok (),
     .error (ExecutionError.fromKind (.VMError 3)), .ok (), .ok (.raw .any [])⟩
    false [9] 5 (ExecutionError.fromKind (.VMError 3))
    rfl ⟨[1], rfl⟩ ⟨[], rfl⟩ rfl rfl rfl (Or.inl rfl)

/-- The upgrade command either leaves the package table unchanged or installs
exactly one new package while succeeding. -/
theorem execute_move_upgrade_table (mode : ExecMode) (cfg : ProtocolConfig)
    (env : UpgradeEnv) (moduleBytes : List (List Nat)) (depIds : List Nat)
    (currentPackageId : Nat) (packages : List Nat) :
    (execute_move_upgrade mode cfg env moduleBytes depIds currentPackageId packages).2
        = packages
    ∨ ∃ pkg vs,
        execute_move_upgrade mode cfg env moduleBytes depIds currentPackageId packages
          = (.ok vs, packages ++ [pkg]) := by
  unfold execute_move_upgrade
  repeat' split
  all_goals first
    | exact Or.inl rfl
    | exact Or.inr ⟨_, _, rfl⟩

/-- C2: an upgrade command fails with a package-id-does-not-match error when
the supplied package id differs from the ticket's bound package id; otherwise
it fails with a digest-does-not-match error when the digest computed over the
new module bytes and declared dependency ids differs from the ticket's digest;
on every failure path no package is installed (the table is only extended on
success, after the compatibility check); and on success the single result is
the upgrade receipt pairing the consumed ticket with the newly assigned
storage identity. -/
theorem C2_upgrade_checks (mode : ExecMode) (cfg : ProtocolConfig) (env : UpgradeEnv)
    (moduleBytes : List (List Nat)) (depIds : List Nat) (currentPackageId : Nat)
    (packages : List Nat) :
    (∀ (tt rt : MoveType) (tv : Value) (bnd : Option Nat) (tb : List Nat)
        (ticket : UpgradeTicket),
      env.chargeGas = .ok () →
      env.loadTicketType = .ok tt →
      env.loadReceiptType = .ok rt →
      env.resolveTicketArg = .ok tv →
      check_param_type mode cfg env.checkEnv 0 tv tt = .ok () →
      amplification_bound mode cfg tt = .ok bnd →
      tv.writeBcsBytes bnd = .ok tb →
      env.parseTicket tb = some ticket →
      currentPackageId ≠ ticket.package →
      execute_move_upgrade mode cfg env moduleBytes depIds currentPackageId packages
        = (.error (ExecutionError.fromKind (.PackageUpgradeErrorKind
            (.PackageIDDoesNotMatch currentPackageId ticket.package))), packages))
    ∧ (∀ (tt rt : MoveType) (tv : Value) (bnd : Option Nat) (tb : List Nat)
        (ticket : UpgradeTicket),
      env.chargeGas = .ok () →
      env.loadTicketType = .ok tt →
      env.loadReceiptType = .ok rt →
      env.resolveTicketArg = .ok tv →
      check_param_type mode cfg env.checkEnv 0 tv tt = .ok () →
      amplification_bound mode cfg tt = .ok bnd →
      tv.writeBcsBytes bnd = .ok tb →
      env.parseTicket tb = some ticket →
      currentPackageId = ticket.package →
      env.computeDigest moduleBytes depIds ≠ ticket.digest →
      execute_move_upgrade mode cfg env moduleBytes depIds currentPackageId packages
        = (.error (ExecutionError.fromKind (.PackageUpgradeErrorKind
            (.DigestDoesNotMatch (env.computeDigest moduleBytes depIds)))), packages))
    ∧ (∀ e : ExecutionError,
      (execute_move_upgrade mode cfg env moduleBytes depIds currentPackageId packages).1
          = .error e →
      (execute_move_upgrade mode cfg env moduleBytes depIds currentPackageId packages).2
          = packages)
    ∧ (∀ (tt rt : MoveType) (tv : Value) (bnd : Option Nat) (tb : List Nat)
        (ticket : UpgradeTicket) (curPkg : Nat) (mods : List Nat) (deps : List Nat)
        (pkg : Nat),
      env.chargeGas = .ok () →
      env.loadTicketType = .ok tt →
      env.loadReceiptType = .ok rt →
      env.resolveTicketArg = .ok tv →
      check_param_type mode cfg env.checkEnv 0 tv tt = .ok () →
      amplification_bound mode cfg tt = .ok bnd →
      tv.writeBcsBytes bnd = .ok tb →
      env.parseTicket tb = some ticket →
      currentPackageId = ticket.package →
      env.computeDigest moduleBytes depIds = ticket.digest →
      env.fetchCurrentPackage ticket.package = .ok curPkg →
      env.deserializeModules = .ok mods →
      env.fetchDeps = .ok deps →
      env.upgradePackage = .ok pkg →
      env.setLinkage = .ok () →
      env.resetLinkage = .ok () →
      env.verifyModules = .ok () →
      check_compatibility cfg env.compatEnv curPkg mods ticket.policy = .ok () →
      execute_move_upgrade mode cfg env moduleBytes depIds currentPackageId packages
        = (.ok [Value.raw (.loaded rt AbilitySet.empty false)
              (encodeReceipt ticket env.freshStorageId)],
           packages ++ [pkg])) := by
  refine ⟨?_, ?_, ?_, ?_⟩
  · intro tt rt tv bnd tb ticket hgas htt hrt htv hcheck hbnd hwb hparse hne
    simp only [execute_move_upgrade, hgas, htt, hrt, htv, hcheck, hbnd, hwb, hparse,
      if_pos hne]
  · intro tt rt tv bnd tb ticket hgas htt hrt htv hcheck hbnd hwb hparse heq hdig
    have hne : ¬currentPackageId ≠ ticket.package := by simp [heq]
    simp only [execute_move_upgrade, hgas, htt, hrt, htv, hcheck, hbnd, hwb, hparse,
      if_neg hne, if_pos hdig]
  · intro e he
    rcases execute_move_upgrade_table mode cfg env moduleBytes depIds currentPackageId
        packages with h | ⟨pkg, vs, h⟩
    · exact h
    · rw [h] at he
      simp at he
  · intro tt rt tv bnd tb ticket curPkg mods deps pkg hgas htt hrt htv hcheck hbnd hwb
      hparse heq hdig hfetch hdeser hdeps hupg hset hreset hver hcompat
    have hne : ¬currentPackageId ≠ ticket.package := by simp [heq]
    have hdigne : ¬env.computeDigest moduleBytes depIds ≠ ticket.digest := by simp [hdig]
    simp only [execute_move_upgrade, hgas, htt, hrt, htv, hcheck, hbnd, hwb, hparse,
      if_neg hne, if_neg hdigne, hfetch, hdeser, hdeps, hupg, hset, hreset, hver, hcompat]

/-- Witness for C2: a concrete upgrade succeeding end to end, and the same
environment failing with a package-id mismatch for a different supplied id. -/
theorem C2_upgrade_checks_witness :
    execute_move_upgrade ⟨true, true, true⟩ ⟨none, 128, false, false, false⟩
        ⟨.ok (), .ok .u8, .ok .u16, .ok (.raw .any []),
         fun _ => some ⟨5, [1, 2], 0⟩, fun _ _ => [1, 2], fun _ => .ok 77,
         .ok [3], 42, .ok [], .ok 88, .ok (), .ok (), .ok (),
         ⟨fun _ _ => true⟩,
         ⟨fun _ => some [], fun _ => [], fun _ _ => true, fun _ _ => true,
          fun _ _ => true⟩⟩
        [[7]] [] 5 [9]
      = (.ok [Value.raw (.loaded .u16 AbilitySet.empty false) [5, 1, 2, 0, 42]],
         [9, 88])
    ∧ execute_move_upgrade ⟨true, true, true⟩ ⟨none, 128, false, false, false⟩
        ⟨.ok (), .ok .u8, .ok .u16, .ok (.raw .any []),
         fun _ => some ⟨5, [1, 2], 0⟩, fun _ _ => [1, 2], fun _ => .ok 77,
         .ok [3], 42, .ok [], .ok 88, .ok (), .ok (), .ok (),
         ⟨fun _ _ => true⟩,
         ⟨fun _ => some [], fun _ => [], fun _ _ => true, fun _ _ => true,
          fun _ _ => true⟩⟩
        [[7]] [] 6 [9]
      = (.error (ExecutionError.fromKind (.PackageUpgradeErrorKind
            (.PackageIDDoesNotMatch 6 5))), [9]) := by
  constructor
  · have h := (C2_upgrade_checks ⟨true, true, true⟩ ⟨none, 128, false, false, false⟩
      ⟨.ok (), .ok .u8, .ok .u16, .ok (.raw .any []),
       fun _ => some ⟨5, [1, 2], 0⟩, fun _ _ => [1, 2], fun _ => .ok 77,
       .ok [3], 42, .ok [], .ok 88, .ok (), .ok (), .ok (),
       ⟨fun _ _ => true⟩,
       ⟨fun _ => some [], fun _ => [], fun _ _ => true, fun _ _ => true,
        fun _ _ => true⟩⟩
      [[7]] [] 5 [9]).2.2.2
    have h2 := h .u8 .u16 (.raw .any []) none [] ⟨5, [1, 2], 0⟩ 77 [3] [] 88
      rfl rfl rfl rfl rfl rfl rfl rfl rfl rfl rfl rfl rfl rfl rfl rfl rfl
      (by simp [check_compatibility, UpgradePolicy.tryFrom, compatLoop])
    simpa [encodeReceipt] using h2
  · have h := (C2_upgrade_checks ⟨true, true, true⟩ ⟨none, 128, false, false, false⟩
      ⟨.ok (), .ok .u8, .ok .u16, .ok (.raw .any []),
       fun _ => some ⟨5, [1, 2], 0⟩, fun _ _ => [1, 2], fun _ => .ok 77,
       .ok [3], 42, .ok [], .ok 88, .ok (), .ok (), .ok (),
       ⟨fun _ _ => true⟩,
       ⟨fun _ => some [], fun _ => [], fun _ _ => true, fun _ _ => true,
        fun _ _ => true⟩⟩
      [[7]] [] 6 [9]).1
    have h2 := h .u8 .u16 (.raw .any []) none [] ⟨5, [1, 2], 0⟩
      rfl rfl rfl rfl rfl rfl rfl rfl (by norm_num)
    simpa using h2

/-- The return-signature fold fails with an invalid-public-function-return-type
error at the first reference return when arbitrary values are not allowed. -/
theorem checkReturnsFrom_ref_fail (mode : ExecMode)
    (hmode : mode.allowArbitraryValues = false) :
    ∀ (rts : List MoveType) (j start : Nat) (inner : MoveType),
    (rts[j]? = some (.reference inner) ∨ rts[j]? = some (.mutableReference inner)) →
    (∀ k o, k < j → rts[k]? = some o → ∃ vk, classifyReturn mode (start + k) o = .ok vk) →
    checkReturnsFrom mode start rts =
      .error (ExecutionError.fromKind (.InvalidPublicFunctionReturnType (start + j))) := by
  intro rts
  induction rts with
  | nil =>
      intro j start inner hj
      rcases hj with hj | hj <;> simp at hj
  | cons t rest ih =>
      intro j start inner hj hbefore
      cases j with
      | zero =>
          have ht : t = .reference inner ∨ t = .mutableReference inner := by
            rcases hj with hj | hj <;> simp at hj <;> [exact Or.inl hj; exact Or.inr hj]
          rcases ht with rfl | rfl <;>
            simp [checkReturnsFrom, classifyReturn, hmode]
      | succ j =>
          have hj2 : rest[j]? = some (.reference inner)
              ∨ rest[j]? = some (.mutableReference inner) := by
            rcases hj with hj | hj
            · rw [List.getElem?_cons_succ] at hj
              exact Or.inl hj
            · rw [List.getElem?_cons_succ] at hj
              exact Or.inr hj
          obtain ⟨vk, hvk⟩ := hbefore 0 t (Nat.succ_pos j) (by simp)
          have hbefore2 : ∀ k o, k < j → rest[k]? = some o →
              ∃ vk2, classifyReturn mode (start + 1 + k) o = .ok vk2 := by
            intro k o hk hko
            have := hbefore (k + 1) o (by omega) (by simpa using hko)
            obtain ⟨vk2, hvk2⟩ := this
            exact ⟨vk2, by
              have harith : start + 1 + k = start + (k + 1) := by omega
              rw [harith]
              exact hvk2⟩
          have hrec := ih j (start + 1) inner hj2 hbefore2
          have harith : start + 1 + j = start + (j + 1) := by omega
          rw [harith] at hrec
          rw [show start + 0 = start from rfl] at hvk
          simp only [checkReturnsFrom, hvk, hrec]

/-- C6: a private or friend non-entry function invoked from a transaction is
rejected with a non-entry-function-invoked error unless the mode allows
arbitrary function calls; a public non-entry function with a reference return
type yields an invalid-public-function-return-type error at that return's
index, except under arbitrary-values mode where the reference is dereferenced
and the inner type classified instead; and invoking `init` from a transaction
is rejected when the ban-entry-init flag is enabled. -/
theorem C6_visibility_and_signature (mode : ExecMode) (cfg : ProtocolConfig) :
    (∀ (mdl : ModuleDef) (function : String) (index : Nat) (fdef : FunctionDef),
      findFunctionDefFrom mdl.functionDefs function 0 = some (index, fdef) →
      ¬(function = INIT_FN_NAME ∧ cfg.banEntryInit) →
      (fdef.visibility = .vPrivate ∨ fdef.visibility = .vFriend) →
      fdef.isEntry = false →
      mode.allowArbitraryFunctionCalls = false →
      check_visibility_and_signature mode cfg mdl function false =
        .error (ExecutionError.fromKind .NonEntryFunctionInvoked))
    ∧ (∀ (mdl : ModuleDef) (function : String) (index : Nat) (fdef : FunctionDef)
        (j : Nat) (inner : MoveType),
      findFunctionDefFrom mdl.functionDefs function 0 = some (index, fdef) →
      ¬(function = INIT_FN_NAME ∧ cfg.banEntryInit) →
      fdef.visibility = .vPublic →
      fdef.isEntry = false →
      mode.allowArbitraryValues = false →
      (fdef.returns[j]? = some (.reference inner)
        ∨ fdef.returns[j]? = some (.mutableReference inner)) →
      (∀ k o, k < j → fdef.returns[k]? = some o →
          ∃ vk, classifyReturn mode k o = .ok vk) →
      check_visibility_and_signature mode cfg mdl function false =
        .error (ExecutionError.fromKind (.InvalidPublicFunctionReturnType j)))
    ∧ (mode.allowArbitraryValues = true →
      ∀ (idx : Nat) (inner : MoveType),
      (∀ i2 : MoveType, inner ≠ .reference i2 ∧ inner ≠ .mutableReference i2) →
      classifyReturn mode idx (.reference inner) = classifyReturn mode idx inner
      ∧ classifyReturn mode idx (.mutableReference inner) = classifyReturn mode idx inner)
    ∧ (∀ (mdl : ModuleDef) (function : String) (index : Nat) (fdef : FunctionDef),
      findFunctionDefFrom mdl.functionDefs function 0 = some (index, fdef) →
      function = INIT_FN_NAME → cfg.banEntryInit = true →
      check_visibility_and_signature mode cfg mdl function false =
        .error (ExecutionError.fromKind .NonEntryFunctionInvoked)) := by
  refine ⟨?_, ?_, ?_, ?_⟩
  · intro mdl function index fdef hfind hban hvis hentry harb
    simp only [check_visibility_and_signature, hfind]
    rw [if_neg (by simp [hban])]
    rcases hvis with hv | hv <;>
      simp [functionKindOf, hv, hentry, harb]
  · intro mdl function index fdef j inner hfind hban hvis hentry hmode hj hbefore
    simp only [check_visibility_and_signature, hfind]
    rw [if_neg (by simp [hban])]
    have hkind : functionKindOf mode fdef function false = .ok .nonEntry := by
      simp [functionKindOf, hvis, hentry]
    have hbefore0 : ∀ k o, k < j → fdef.returns[k]? = some o →
        ∃ vk, classifyReturn mode (0 + k) o = .ok vk := by
      intro k o hk hko
      simpa using hbefore k o hk hko
    have hret := checkReturnsFrom_ref_fail mode hmode fdef.returns j 0 inner hj hbefore0
    rw [Nat.zero_add] at hret
    simp only [hkind, returnKindsOf, check_non_entry_signature, hret]
  · intro hmode idx inner hinner
    refine ⟨?_, ?_⟩ <;>
      cases inner <;>
        first
          | exact absurd rfl (hinner _).1
          | exact absurd rfl (hinner _).2
          | simp [classifyReturn, hmode]
  · intro mdl function index fdef hfind hname hban
    simp only [check_visibility_and_signature, hfind]
    rw [if_pos (by simp [hname, hban])]

/-- Witness for C6: a private non-entry function rejected under the strict
mode, and `init` rejected under the ban flag. -/
theorem C6_visibility_and_signature_witness :
    check_visibility_and_signature ⟨false, false, false⟩ ⟨none, 1, false, true, false⟩
        ⟨0, "m", [⟨"f", .vPrivate, false, none, [], []⟩]⟩ "f" false =
      .error (ExecutionError.fromKind .NonEntryFunctionInvoked)
    ∧ check_visibility_and_signature ⟨false, false, false⟩ ⟨none, 1, false, true, false⟩
        ⟨0, "m", [⟨"init", .vPrivate, false, none, [], []⟩]⟩ "init" false =
      .error (ExecutionError.fromKind .NonEntryFunctionInvoked) := by
  have h := C6_visibility_and_signature ⟨false, false, false⟩ ⟨none, 1, false, true, false⟩
  refine ⟨?_, ?_⟩
  · exact h.1 ⟨0, "m", [⟨"f", .vPrivate, false, none, [], []⟩]⟩ "f" 0
      ⟨"f", .vPrivate, false, none, [], []⟩ rfl (by simp [INIT_FN_NAME])
      (Or.inl rfl) rfl rfl
  · exact h.2.2.2 ⟨0, "m", [⟨"init", .vPrivate, false, none, [], []⟩]⟩ "init" 0
      ⟨"init", .vPrivate, false, none, [], []⟩ rfl rfl rfl

/-- C9: any call targeting the framework's raw event-emission module, and any
call targeting a designated private transfer function of the framework's
transfer module, is rejected by the private-generics check with a
non-entry-function-invoked error, independently of the function's definition;
and the full visibility-and-signature pipeline never succeeds for such a
target. -/
theorem C9_private_generics_rejection :
    (∀ function : String,
      check_private_generics SUI_FRAMEWORK_ADDRESS EVENT_MODULE function =
        .error (ExecutionError.fromKind .NonEntryFunctionInvoked))
    ∧ (∀ function ∈ PRIVATE_TRANSFER_FUNCTIONS,
      check_private_generics SUI_FRAMEWORK_ADDRESS TRANSFER_MODULE function =
        .error (ExecutionError.fromKind .NonEntryFunctionInvoked))
    ∧ (∀ (mode : ExecMode) (cfg : ProtocolConfig) (mdl : ModuleDef) (function : String)
        (fromInit : Bool),
      mdl.addr = SUI_FRAMEWORK_ADDRESS →
      (mdl.name = EVENT_MODULE
        ∨ (mdl.name = TRANSFER_MODULE ∧ function ∈ PRIVATE_TRANSFER_FUNCTIONS)) →
      ∃ e, check_visibility_and_signature mode cfg mdl function fromInit = .error e) := by
  refine ⟨?_, ?_, ?_⟩
  · intro function
    simp [check_private_generics]
  · intro function hf
    simp [check_private_generics, EVENT_MODULE, TRANSFER_MODULE, hf]
  · intro mode cfg mdl function fromInit haddr hmod
    have hpg : check_private_generics mdl.addr mdl.name function =
        .error (ExecutionError.fromKind .NonEntryFunctionInvoked) := by
      rcases hmod with hm | ⟨hm, hf⟩
      · simp [check_private_generics, haddr, hm]
      · simp [check_private_generics, haddr, hm, EVENT_MODULE, TRANSFER_MODULE, hf]
    cases hfind : findFunctionDefFrom mdl.functionDefs function 0 with
    | none =>
        refine ⟨ExecutionError.fromKind .FunctionNotFound, ?_⟩
        simp only [check_visibility_and_signature, hfind]
    | some p =>
      obtain ⟨index, fdef⟩ := p
      simp only [check_visibility_and_signature, hfind]
      split_ifs with hb
      · exact ⟨_, rfl⟩
      · cases hkind : functionKindOf mode fdef function fromInit with
        | error e => exact ⟨e, by simp only [hkind]⟩
        | ok fk =>
          cases hret : returnKindsOf mode fk fdef.returns with
          | error e => exact ⟨e, by simp only [hkind, hret]⟩
          | ok rvk =>
              exact ⟨ExecutionError.fromKind .NonEntryFunctionInvoked,
                by simp only [hkind, hret, hpg]⟩

/-- Witness for C9: a call to a function of the event module, and a call to a
private transfer function. -/
theorem C9_private_generics_rejection_witness :
    check_private_generics SUI_FRAMEWORK_ADDRESS EVENT_MODULE "emit" =
      .error (ExecutionError.fromKind .NonEntryFunctionInvoked)
    ∧ check_private_generics SUI_FRAMEWORK_ADDRESS TRANSFER_MODULE "transfer" =
      .error (ExecutionError.fromKind .NonEntryFunctionInvoked)
    ∧ (∃ e, check_visibility_and_signature ⟨false, false, false⟩
        ⟨none, 1, false, false, false⟩
        ⟨SUI_FRAMEWORK_ADDRESS, "event", [⟨"emit", .vPublic, false, none, [], []⟩]⟩
        "emit" false = .error e) := by
  have h := C9_private_generics_rejection
  refine ⟨h.1 "emit", h.2.1 "transfer" (by simp [PRIVATE_TRANSFER_FUNCTIONS]), ?_⟩
  exact h.2.2 ⟨false, false, false⟩ ⟨none, 1, false, false, false⟩
    ⟨SUI_FRAMEWORK_ADDRESS, "event", [⟨"emit", .vPublic, false, none, [], []⟩]⟩
    "emit" false rfl (Or.inl rfl)

/-- The argument loop rejects a non-entry-call-produced value supplied to a
private-entry or `init` callee at its argument index, whatever the type
checker would have said, provided the earlier argument steps succeed. -/
theorem buildArgsLoop_flagged_fail (mode : ExecMode) (cfg : ProtocolConfig)
    (renv : ResolveEnv) (cenv : CheckEnv) (functionKind : FunctionKind)
    (hkind : functionKind = .privateEntry ∨ functionKind = .init) :
    ∀ (i : Nat) (params : List MoveType) (start r : Nat) (pi : MoveType) (v : Value),
    i < r →
    params[i]? = some pi →
    (∀ k p, k < i → params[k]? = some p →
        ∃ out, buildArgStep mode cfg renv cenv functionKind (start + k) p = .ok out) →
    resolveArgValue renv (start + i) pi = .ok v →
    v.wasUsedInNonEntryMoveCall = true →
    buildArgsLoop mode cfg renv cenv functionKind params start r =
      .error (command_argument_error .InvalidArgumentToPrivateEntryFunction (start + i)) := by
  intro i
  induction i with
  | zero =>
      intro params start r pi v hir hpi hsteps hres hflag
      obtain ⟨m, rfl⟩ : ∃ m, r = m + 1 := ⟨r - 1, by omega⟩
      cases params with
      | nil => simp at hpi
      | cons p ps =>
        simp at hpi
        subst hpi
        have hres0 : resolveArgValue renv start p = .ok v := hres
        have hstep : buildArgStep mode cfg renv cenv functionKind start p =
            .error (command_argument_error .InvalidArgumentToPrivateEntryFunction start) := by
          simp only [buildArgStep, hres0]
          rw [if_pos ⟨hkind, hflag⟩]
        simp only [buildArgsLoop, hstep, Nat.add_zero]
  | succ i ih =>
      intro params start r pi v hir hpi hsteps hres hflag
      obtain ⟨m, rfl⟩ : ∃ m, r = m + 1 := ⟨r - 1, by omega⟩
      cases params with
      | nil => simp at hpi
      | cons p ps =>
        rw [List.getElem?_cons_succ] at hpi
        obtain ⟨out, hout⟩ := hsteps 0 p (Nat.succ_pos i) (by simp)
        have hsteps2 : ∀ k q, k < i → ps[k]? = some q →
            ∃ out2, buildArgStep mode cfg renv cenv functionKind (start + 1 + k) q
              = .ok out2 := by
          intro k q hk hkq
          obtain ⟨out2, hout2⟩ := hsteps (k + 1) q (by omega) (by simpa using hkq)
          exact ⟨out2, by
            have harith : start + 1 + k = start + (k + 1) := by omega
            rw [harith]
            exact hout2⟩
        have hres2 : resolveArgValue renv (start + 1 + i) pi = .ok v := by
          have harith : start + 1 + i = start + (i + 1) := by omega
          rw [harith]
          exact hres
        have hrec := ih ps (start + 1) m pi v (by omega) hpi hsteps2 hres2 hflag
        have harith : start + 1 + i = start + (i + 1) := by omega
        rw [harith] at hrec
        rw [show start + 0 = start from rfl] at hout
        simp only [buildArgsLoop, hout, hrec]

/-- Shared form of the private-entry provenance rejection at the level of
`build_move_args`. -/
theorem build_move_args_flagged_rejected (mode : ExecMode) (cfg : ProtocolConfig)
    (renv : ResolveEnv) (cenv : CheckEnv) (functionKind : FunctionKind)
    (parameters : List MoveType) (numArgs i : Nat) (pi : MoveType) (v : Value)
    (hkind : functionKind = .privateEntry ∨ functionKind = .init)
    (harity : moveArgCount functionKind parameters numArgs = parameters.length)
    (hi : i < numArgs)
    (hpi : parameters[i]? = some pi)
    (hsteps : ∀ k p, k < i → parameters[k]? = some p →
        ∃ out, buildArgStep mode cfg renv cenv functionKind k p = .ok out)
    (hres : resolveArgValue renv i pi = .ok v)
    (hflag : v.wasUsedInNonEntryMoveCall = true) :
    build_move_args mode cfg renv cenv functionKind parameters numArgs =
      .error (command_argument_error .InvalidArgumentToPrivateEntryFunction i) := by
  have hsteps0 : ∀ k p, k < i → parameters[k]? = some p →
      ∃ out, buildArgStep mode cfg renv cenv functionKind (0 + k) p = .ok out := by
    intro k p hk hkp
    simpa using hsteps k p hk hkp
  have hres0 : resolveArgValue renv (0 + i) pi = .ok v := by simpa using hres
  have hloop := buildArgsLoop_flagged_fail mode cfg renv cenv functionKind hkind
    i parameters 0 numArgs pi v hi hpi hsteps0 hres0 hflag
  rw [Nat.zero_add] at hloop
  simp only [build_move_args, hloop]
  rw [if_neg (fun hne => hne harity)]

/-- C5: a Move call resolved to a private-entry or `init` function rejects any
argument whose value carries the produced-by-a-prior-non-entry-call provenance
flag, with an invalid-argument-to-private-entry-function error at that
argument's index — for every type checker behavior and whatever the value's
runtime type, since the rejection happens before the type check. -/
theorem C5_private_entry_provenance (mode : ExecMode) (cfg : ProtocolConfig)
    (renv : ResolveEnv) (cenv : CheckEnv) (functionKind : FunctionKind)
    (parameters : List MoveType) (numArgs i : Nat) (pi : MoveType) (v : Value)
    (hkind : functionKind = .privateEntry ∨ functionKind = .init)
    (harity : moveArgCount functionKind parameters numArgs = parameters.length)
    (hi : i < numArgs)
    (hpi : parameters[i]? = some pi)
    (hsteps : ∀ k p, k < i → parameters[k]? = some p →
        ∃ out, buildArgStep mode cfg renv cenv functionKind k p = .ok out)
    (hres : resolveArgValue renv i pi = .ok v)
    (hflag : v.wasUsedInNonEntryMoveCall = true) :
    build_move_args mode cfg renv cenv functionKind parameters numArgs =
      .error (command_argument_error .InvalidArgumentToPrivateEntryFunction i) :=
  build_move_args_flagged_rejected mode cfg renv cenv functionKind parameters numArgs
    i pi v hkind harity hi hpi hsteps hres hflag

/-- Witness for C5: a private-entry call receiving a flagged loaded value as
its only argument. -/
theorem C5_private_entry_provenance_witness :
    build_move_args ⟨false, false, false⟩ ⟨none, 128, false, false, false⟩
        ⟨fun _ => .ok (.raw .any []), fun _ => .ok (.raw .any []),
         fun _ => .ok (.raw (.loaded .u64 ⟨true, true, true, false⟩ true) [7])⟩
        ⟨fun _ _ => true⟩ .privateEntry [.u64] 1 =
      .error (command_argument_error .InvalidArgumentToPrivateEntryFunction 0) := by
  have h := C5_private_entry_provenance ⟨false, false, false⟩
    ⟨none, 128, false, false, false⟩
    ⟨fun _ => .ok (.raw .any []), fun _ => .ok (.raw .any []),
     fun _ => .ok (.raw (.loaded .u64 ⟨true, true, true, false⟩ true) [7])⟩
    ⟨fun _ _ => true⟩ .privateEntry [.u64] 1 0 .u64
    (.raw (.loaded .u64 ⟨true, true, true, false⟩ true) [7])
    (Or.inl rfl) (by simp [moveArgCount, hasOneTimeWitness, txContextKindOf, is_tx_context])
    (by omega) rfl (by intro k p hk; omega) rfl rfl
  exact h

/-- The provenance flag of a value built by `make_value` is the flag it was
built with. -/
theorem make_value_flag (kind : ValueKind) (bytes : List Nat) (b : Bool) :
    (make_value kind bytes b).wasUsedInNonEntryMoveCall = b := by
  cases kind <;>
    simp [make_value, make_object_value, Value.wasUsedInNonEntryMoveCall]

/-- C10: every declared return value written back from a Move call is
constructed with the produced-by-non-entry-call provenance flag set to true,
independently of the mutable-reference flag of the call (i.e. of the callee's
classification); and consequently any such value supplied to a private-entry
or `init` function at some argument position is rejected by `build_move_args`
with an invalid-argument-to-private-entry-function error there. -/
theorem C10_return_values_flagged :
    (∀ (nonEntry : Bool) (mrv : List (Nat × List Nat)) (mrk : List (Nat × ValueKind))
        (rv : List (List Nat)) (rvk : List ValueKind)
        (restored : List (Nat × Value)) (results : List Value),
      write_back_results nonEntry mrv mrk rv rvk = .ok (restored, results) →
      ∀ v ∈ results, v.wasUsedInNonEntryMoveCall = true)
    ∧ (∀ (kind : ValueKind) (bytes : List Nat),
        (make_value kind bytes true).wasUsedInNonEntryMoveCall = true)
    ∧ (∀ (nonEntry : Bool) (mrv : List (Nat × List Nat)) (mrk : List (Nat × ValueKind))
        (rv : List (List Nat)) (rvk : List ValueKind)
        (restored : List (Nat × Value)) (results : List Value)
        (mode : ExecMode) (cfg : ProtocolConfig) (renv : ResolveEnv) (cenv : CheckEnv)
        (functionKind : FunctionKind) (parameters : List MoveType) (numArgs i : Nat)
        (pi : MoveType) (v : Value),
      write_back_results nonEntry mrv mrk rv rvk = .ok (restored, results) →
      v ∈ results →
      (functionKind = .privateEntry ∨ functionKind = .init) →
      moveArgCount functionKind parameters numArgs = parameters.length →
      i < numArgs →
      parameters[i]? = some pi →
      (∀ k p, k < i → parameters[k]? = some p →
          ∃ out, buildArgStep mode cfg renv cenv functionKind k p = .ok out) →
      resolveArgValue renv i pi = .ok v →
      build_move_args mode cfg renv cenv functionKind parameters numArgs =
        .error (command_argument_error .InvalidArgumentToPrivateEntryFunction i)) := by
  have hflagged : ∀ (nonEntry : Bool) (mrv : List (Nat × List Nat))
      (mrk : List (Nat × ValueKind)) (rv : List (List Nat)) (rvk : List ValueKind)
      (restored : List (Nat × Value)) (results : List Value),
      write_back_results nonEntry mrv mrk rv rvk = .ok (restored, results) →
      ∀ v ∈ results, v.wasUsedInNonEntryMoveCall = true := by
    intro nonEntry mrv mrk rv rvk restored results h v hv
    cases hwb : writeBackMutRefs nonEntry mrv mrk with
    | error e =>
        rw [write_back_results, hwb] at h
        simp at h
    | ok rst =>
        rw [write_back_results, hwb] at h
        simp only [Except.ok.injEq, Prod.mk.injEq] at h
        obtain ⟨-, hres⟩ := h
        subst hres
        obtain ⟨⟨bytes, kind⟩, hmem, hv2⟩ := List.mem_map.mp hv
        subst hv2
        exact make_value_flag kind bytes true
  refine ⟨hflagged, fun kind bytes => make_value_flag kind bytes true, ?_⟩
  intro nonEntry mrv mrk rv rvk restored results mode cfg renv cenv functionKind
    parameters numArgs i pi v hwb hv hkind harity hi hpi hsteps hres
  exact build_move_args_flagged_rejected mode cfg renv cenv functionKind parameters
    numArgs i pi v hkind harity hi hpi hsteps hres
    (hflagged nonEntry mrv mrk rv rvk restored results hwb v hv)

/-- Witness for C10: a call with one return value; the value is flagged and is
rejected when passed on to a private-entry call. -/
theorem C10_return_values_flagged_witness :
    (∀ v ∈ ([(.raw (.loaded .u64 AbilitySet.empty true) [7])] : List Value),
        v.wasUsedInNonEntryMoveCall = true)
    ∧ build_move_args ⟨false, false, false⟩ ⟨none, 128, false, false, false⟩
        ⟨fun _ => .ok (.raw .any []), fun _ => .ok (.raw .any []),
         fun _ => .ok (.raw (.loaded .u64 AbilitySet.empty true) [7])⟩
        ⟨fun _ _ => true⟩ .privateEntry [.u64] 1 =
      .error (command_argument_error .InvalidArgumentToPrivateEntryFunction 0) := by
  have hwb : write_back_results true [] [] [[7]] [.rawKind .u64 AbilitySet.empty]
      = .ok ([], [(.raw (.loaded .u64 AbilitySet.empty true) [7])]) := by
    simp [write_back_results, writeBackMutRefs, make_value]
  have h := C10_return_values_flagged
  refine ⟨?_, ?_⟩
  · exact h.1 true [] [] [[7]] [.rawKind .u64 AbilitySet.empty] []
      [(.raw (.loaded .u64 AbilitySet.empty true) [7])] hwb
  · exact h.2.2 true [] [] [[7]] [.rawKind .u64 AbilitySet.empty] []
      [(.raw (.loaded .u64 AbilitySet.empty true) [7])]
      ⟨false, false, false⟩ ⟨none, 128, false, false, false⟩
      ⟨fun _ => .ok (.raw .any []), fun _ => .ok (.raw .any []),
       fun _ => .ok (.raw (.loaded .u64 AbilitySet.empty true) [7])⟩
      ⟨fun _ _ => true⟩ .privateEntry [.u64] 1 0 .u64
      (.raw (.loaded .u64 AbilitySet.empty true) [7])
      hwb (by simp)
      (Or.inl rfl) (by simp [moveArgCount, hasOneTimeWitness, txContextKindOf, is_tx_context])
      (by omega) rfl (by intro k p hk; omega) rfl

end Spec2Proof
